import Mathlib

/-!
Verification of the Hoppscotch OpenAPI import-and-synthesis engine.

Shallow embedding of `packages/hoppscotch-data/src/importers/openapi/index.ts`
and `packages/hoppscotch-data/src/importers/helpers/mock-generator.ts`
(the current, visited-set version of the generator), together with proofs
about the importer's specified behaviour.

JavaScript dynamic values are modelled by the `Json` inductive below (with an
explicit `undefined`), JavaScript exceptions (TypeError on member access of
`null`/`undefined`, calling a string method on a non-string, iterating a
non-iterable) by `Except String`, and JavaScript numbers by `Int` (every
numeric literal exercised by the claims is integral).

External collaborators that are not part of the analyzed source (the
`@faker-js/faker` randomness provider, `lodash.cloneDeep`, the
status-code/reason-phrase table, `knownContentTypes`, and the
worker/SwaggerParser validation and dereference backends) are modelled from
the spec as abstract parameters or small tables; each such definition carries
a doc comment saying so.
-/

set_option maxHeartbeats 1000000

namespace Hopp

/-- A JavaScript/JSON value.  `undefined` is distinguished from `null`
because the source relies on `??` (nullish coalescing), `||` and truthiness,
which treat them alike, while `JSON.stringify` and membership tests do not. -/
inductive Json where
  | undefined : Json
  | null : Json
  | bool : Bool → Json
  | num : Int → Json
  | str : String → Json
  | arr : List Json → Json
  | obj : List (String × Json) → Json

namespace Json

/-- JavaScript truthiness: `undefined`, `null`, `false`, `0` and `""` are
falsy, everything else (including `[]` and `{}`) is truthy. -/
def truthy : Json → Bool
  | .undefined => false
  | .null => false
  | .bool b => b
  | .num n => n != 0
  | .str s => s != ""
  | .arr _ => true
  | .obj _ => true

/-- Is the value `null` or `undefined` (the two nullish values)? -/
def nullish : Json → Bool
  | .undefined => true
  | .null => true
  | _ => false

end Json

mutual

/-- Decidable equality for `Json` (the nested inductive defeats the
automatic deriver). -/
def jsonDecEq : (a b : Json) → Decidable (a = b)
  | .undefined, .undefined => .isTrue rfl
  | .undefined, .null => .isFalse (fun h => Json.noConfusion h)
  | .undefined, .bool _ => .isFalse (fun h => Json.noConfusion h)
  | .undefined, .num _ => .isFalse (fun h => Json.noConfusion h)
  | .undefined, .str _ => .isFalse (fun h => Json.noConfusion h)
  | .undefined, .arr _ => .isFalse (fun h => Json.noConfusion h)
  | .undefined, .obj _ => .isFalse (fun h => Json.noConfusion h)
  | .null, .undefined => .isFalse (fun h => Json.noConfusion h)
  | .null, .null => .isTrue rfl
  | .null, .bool _ => .isFalse (fun h => Json.noConfusion h)
  | .null, .num _ => .isFalse (fun h => Json.noConfusion h)
  | .null, .str _ => .isFalse (fun h => Json.noConfusion h)
  | .null, .arr _ => .isFalse (fun h => Json.noConfusion h)
  | .null, .obj _ => .isFalse (fun h => Json.noConfusion h)
  | .bool _, .undefined => .isFalse (fun h => Json.noConfusion h)
  | .bool _, .null => .isFalse (fun h => Json.noConfusion h)
  | .bool x, .bool y =>
      match decEq x y with
      | .isTrue h => .isTrue (h ▸ rfl)
      | .isFalse h => .isFalse (by intro he; injection he; contradiction)
  | .bool _, .num _ => .isFalse (fun h => Json.noConfusion h)
  | .bool _, .str _ => .isFalse (fun h => Json.noConfusion h)
  | .bool _, .arr _ => .isFalse (fun h => Json.noConfusion h)
  | .bool _, .obj _ => .isFalse (fun h => Json.noConfusion h)
  | .num _, .undefined => .isFalse (fun h => Json.noConfusion h)
  | .num _, .null => .isFalse (fun h => Json.noConfusion h)
  | .num _, .bool _ => .isFalse (fun h => Json.noConfusion h)
  | .num x, .num y =>
      match decEq x y with
      | .isTrue h => .isTrue (h ▸ rfl)
      | .isFalse h => .isFalse (by intro he; injection he; contradiction)
  | .num _, .str _ => .isFalse (fun h => Json.noConfusion h)
  | .num _, .arr _ => .isFalse (fun h => Json.noConfusion h)
  | .num _, .obj _ => .isFalse (fun h => Json.noConfusion h)
  | .str _, .undefined => .isFalse (fun h => Json.noConfusion h)
  | .str _, .null => .isFalse (fun h => Json.noConfusion h)
  | .str _, .bool _ => .isFalse (fun h => Json.noConfusion h)
  | .str _, .num _ => .isFalse (fun h => Json.noConfusion h)
  | .str x, .str y =>
      match decEq x y with
      | .isTrue h => .isTrue (h ▸ rfl)
      | .isFalse h => .isFalse (by intro he; injection he; contradiction)
  | .str _, .arr _ => .isFalse (fun h => Json.noConfusion h)
  | .str _, .obj _ => .isFalse (fun h => Json.noConfusion h)
  | .arr _, .undefined => .isFalse (fun h => Json.noConfusion h)
  | .arr _, .null => .isFalse (fun h => Json.noConfusion h)
  | .arr _, .bool _ => .isFalse (fun h => Json.noConfusion h)
  | .arr _, .num _ => .isFalse (fun h => Json.noConfusion h)
  | .arr _, .str _ => .isFalse (fun h => Json.noConfusion h)
  | .arr x, .arr y =>
      match jsonListDecEq x y with
      | .isTrue h => .isTrue (h ▸ rfl)
      | .isFalse h => .isFalse (by intro he; injection he; contradiction)
  | .arr _, .obj _ => .isFalse (fun h => Json.noConfusion h)
  | .obj _, .undefined => .isFalse (fun h => Json.noConfusion h)
  | .obj _, .null => .isFalse (fun h => Json.noConfusion h)
  | .obj _, .bool _ => .isFalse (fun h => Json.noConfusion h)
  | .obj _, .num _ => .isFalse (fun h => Json.noConfusion h)
  | .obj _, .str _ => .isFalse (fun h => Json.noConfusion h)
  | .obj _, .arr _ => .isFalse (fun h => Json.noConfusion h)
  | .obj x, .obj y =>
      match jsonFieldsDecEq x y with
      | .isTrue h => .isTrue (h ▸ rfl)
      | .isFalse h => .isFalse (by intro he; injection he; contradiction)

def jsonListDecEq : (a b : List Json) → Decidable (a = b)
  | [], [] => .isTrue rfl
  | [], _ :: _ => .isFalse (fun h => List.noConfusion h)
  | _ :: _, [] => .isFalse (fun h => List.noConfusion h)
  | x :: xs, y :: ys =>
      match jsonDecEq x y with
      | .isTrue h1 =>
          match jsonListDecEq xs ys with
          | .isTrue h2 => .isTrue (by rw [h1, h2])
          | .isFalse h2 => .isFalse (by intro h; injection h; contradiction)
      | .isFalse h1 => .isFalse (by intro h; injection h; contradiction)

def jsonFieldsDecEq : (a b : List (String × Json)) → Decidable (a = b)
  | [], [] => .isTrue rfl
  | [], _ :: _ => .isFalse (fun h => List.noConfusion h)
  | _ :: _, [] => .isFalse (fun h => List.noConfusion h)
  | (k1, v1) :: xs, (k2, v2) :: ys =>
      match decEq k1 k2 with
      | .isTrue hk =>
          match jsonDecEq v1 v2 with
          | .isTrue hv =>
              match jsonFieldsDecEq xs ys with
              | .isTrue ht => .isTrue (by rw [hk, hv, ht])
              | .isFalse ht => .isFalse (by intro h; injection h; contradiction)
          | .isFalse hv =>
              .isFalse (by intro h; injection h with h1 h2; injection h1; contradiction)
      | .isFalse hk =>
          .isFalse (by intro h; injection h with h1 h2; injection h1; contradiction)

end

instance : DecidableEq Json := jsonDecEq

/-- JavaScript strict equality `v === "lit"` against a string literal (the
only shape of `===` the analyzed source uses). -/
def jeqStr (v : Json) (s : String) : Bool :=
  match v with
  | .str t => t = s
  | _ => false

/-- JavaScript strict equality `v === n` against a numeric literal. -/
def jeqNum (v : Json) (n : Int) : Bool :=
  match v with
  | .num m => m = n
  | _ => false

/-! Character-list implementations of the string primitives the source
uses (`startsWith`, `endsWith`, `toUpperCase`, `toLowerCase`, `trim`,
numeric parsing).  They agree with the usual library functions and keep
every definition in this file evaluable inside the kernel. -/

def strStartsWith (s p : String) : Bool := p.toList.isPrefixOf s.toList

def strEndsWith (s p : String) : Bool := p.toList.reverse.isPrefixOf s.toList.reverse

def strToUpper (s : String) : String := String.mk (s.toList.map Char.toUpper)

def strToLower (s : String) : String := String.mk (s.toList.map Char.toLower)

def isJsWhitespace (c : Char) : Bool := c = ' ' || c = '\t' || c = '\n' || c = '\r'

/-- `String.prototype.trim` (over the ASCII whitespace the analyzed
documents can contain). -/
def strTrim (s : String) : String :=
  String.mk (((s.toList.dropWhile isJsWhitespace).reverse.dropWhile isJsWhitespace).reverse)

def digitsToNat (l : List Char) : Nat := l.foldl (fun acc c => acc * 10 + (c.toNat - 48)) 0

/-- A canonical array-index string (JavaScript array member access
`arr[k]` hits an element only for the canonical decimal form of the
index). -/
def strToNatIndex? (s : String) : Option Nat :=
  match s.toList with
  | [] => none
  | c :: rest =>
      if (c :: rest).all Char.isDigit && (c != '0' || rest = []) then
        some (digitsToNat (c :: rest))
      else none

mutual

/-- JavaScript string coercion (`String(v)` / template literals / property
keys).  Array elements that are nullish stringify to the empty string inside
`Array.prototype.toString`, objects to `"[object Object]"`. -/
def jsToString : Json → String
  | .undefined => "undefined"
  | .null => "null"
  | .bool b => if b then "true" else "false"
  | .num n => toString n
  | .str s => s
  | .arr l => String.intercalate "," (jsToStringElems l)
  | .obj _ => "[object Object]"

def jsToStringElems : List Json → List String
  | [] => []
  | e :: rest => (if e.nullish then "" else jsToString e) :: jsToStringElems rest

end

/-- Member access `v[k]` on a non-nullish base: object key lookup, array
index / `length`, string index / `length`; anything missing is `undefined`. -/
def jget (v : Json) (k : String) : Json :=
  match v with
  | .obj fields => ((fields.find? (fun p => p.1 = k)).map Prod.snd).getD .undefined
  | .arr l =>
      if k = "length" then .num l.length
      else match strToNatIndex? k with
        | some i => l.getD i .undefined
        | none => .undefined
  | .str s =>
      if k = "length" then .num s.length
      else match strToNatIndex? k with
        | some i => match s.toList.get? i with
          | some c => .str (String.mk [c])
          | none => .undefined
        | none => .undefined
  | _ => .undefined

/-- Member access `v.k`, throwing a TypeError when the base is nullish
(JavaScript semantics of reading a property of `null`/`undefined`). -/
def jaccess (v : Json) (k : String) : Except String Json :=
  if v.nullish then .error "TypeError" else .ok (jget v k)

/-- Optional chaining `v?.k`. -/
def jsOptChain (v : Json) (k : String) : Json :=
  if v.nullish then .undefined else jget v k

/-- Nullish coalescing `a ?? b`. -/
def jsNullish (a b : Json) : Json := if a.nullish then b else a

/-- Logical or `a || b` on values. -/
def jsOr (a b : Json) : Json := if a.truthy then a else b

/-- `Object.entries`: fields of an object, indexed elements of an array,
indexed characters of a string, nothing for primitives. -/
def jsEntries : Json → List (String × Json)
  | .obj fields => fields
  | .arr l => l.enum.map fun p => (toString p.1, p.2)
  | .str s => (s.toList.enum).map fun p => (toString p.1, Json.str (String.mk [p.2]))
  | _ => []

/-- `Object.keys` on a value already known to be non-nullish. -/
def jsKeysTot (v : Json) : List String := (jsEntries v).map Prod.fst

/-- `Object.keys`, throwing on `null`/`undefined` as JavaScript does. -/
def jsKeysE (v : Json) : Except String (List String) :=
  if v.nullish then .error "TypeError" else .ok (jsKeysTot v)

/-- The `in` operator (`k in v`): membership among own keys for objects and
arrays, TypeError on primitives. -/
def jsInOp (k : String) (v : Json) : Except String Bool :=
  match v with
  | .obj fields => .ok (fields.any fun p => p.1 = k)
  | .arr l => .ok (k = "length" || (match strToNatIndex? k with
      | some i => decide (i < l.length)
      | none => false))
  | _ => .error "TypeError"

/-- Source helper `objectHasProperty`: `!!obj && typeof obj === "object" &&
propName in obj`. -/
def objectHasProperty (v : Json) (k : String) : Bool :=
  match v with
  | .obj fields => fields.any fun p => p.1 = k
  | .arr l => k = "length" || (match strToNatIndex? k with
      | some i => decide (i < l.length)
      | none => false)
  | _ => false

/-- JavaScript property assignment `o[k] = v` on an object: replaces the
value in place when the key exists (keeping its position), appends otherwise. -/
def objInsertG {β : Type} (l : List (String × β)) (k : String) (v : β) : List (String × β) :=
  if l.any (fun p => p.1 = k) then
    l.map fun p => if p.1 = k then (k, v) else p
  else l ++ [(k, v)]

/-- Calling a string method (`.startsWith`, `.endsWith`, `.trim`, ...) on a
value: ok only for strings, TypeError otherwise. -/
def asStrE (v : Json) : Except String String :=
  match v with
  | .str s => .ok s
  | _ => .error "TypeError"

/-- `s.replace(/\/$/, "")`: strip one trailing slash. -/
def stripTrailingSlash (s : String) : String :=
  if strEndsWith s "/" then s.dropRight 1 else s

/-- Numeric comparison `a > b` where `a` may be any value: false unless `a`
is a number (models `undefined > 0` being false; the source only compares
`length` values, which are numbers or `undefined`). -/
def jsNumGt (a : Json) (b : Int) : Bool :=
  match a with
  | .num n => n > b
  | _ => false

/-- Substring test used for `String.prototype.includes`. -/
def strIncludes (s sub : String) : Bool :=
  (List.range (s.length + 1)).any fun i => sub.toList.isPrefixOf (s.toList.drop i)

/-- Source helper `isNumericLocal` (`!isNaN(parseFloat(v)) && isFinite(v)`)
composed with `Number(key)`: the numeric value of a string when the whole
string is a (possibly negated) run of decimal digits.  JavaScript also
accepts fractional and exponent forms; the analyzed documents only use
integral response keys, so those are not modelled. -/
def parseNumLocal (s : String) : Option Int :=
  match s.toList with
  | [] => none
  | '-' :: rest => if rest ≠ [] && rest.all Char.isDigit then some (-(digitsToNat rest)) else none
  | c :: rest => if (c :: rest).all Char.isDigit then some (digitsToNat (c :: rest)) else none

/-- JSON string escaping for `JSON.stringify` (the subset of escapes the
analyzed documents can produce). -/
def jsonEscape (s : String) : String :=
  String.join <| s.toList.map fun c =>
    if c = '"' then "\\\""
    else if c = '\\' then "\\\\"
    else if c = '\n' then "\\n"
    else if c = '\t' then "\\t"
    else if c = '\r' then "\\r"
    else String.mk [c]

/-- Layout for composite values in `JSON.stringify`: compact when `ind = 0`,
otherwise newline-and-indent separated as JavaScript does. -/
def jsonWrap (ind depth : Nat) (op cl : String) (items : List String) : String :=
  if items = [] then op ++ cl
  else if ind = 0 then op ++ String.intercalate "," items ++ cl
  else
    let pad := String.join (List.replicate (ind * depth) " ")
    let padEnd := String.join (List.replicate (ind * (depth - 1)) " ")
    op ++ "\n" ++ pad ++ String.intercalate (",\n" ++ pad) items ++ "\n" ++ padEnd ++ cl


mutual

/-- `JSON.stringify(v, null, ind)` (`ind = 0` is the compact, two-argument
form).  Returns `none` exactly when JavaScript returns the value
`undefined`, i.e. on the input `undefined`.  `undefined` becomes `null`
inside arrays and is skipped inside objects, as in JavaScript. -/
def jsonStringify (ind : Nat) (depth : Nat) : Json → Option String
  | .undefined => none
  | .null => some "null"
  | .bool b => some (if b then "true" else "false")
  | .num n => some (toString n)
  | .str s => some ("\"" ++ jsonEscape s ++ "\"")
  | .arr l =>
      let items := jsonStringifyArr ind (depth + 1) l
      some (jsonWrap ind depth "[" "]" items)
  | .obj fields =>
      let items := jsonStringifyObj ind (depth + 1) fields
      some (jsonWrap ind depth "\x7b" "\x7d" items)

def jsonStringifyArr (ind : Nat) (depth : Nat) : List Json → List String
  | [] => []
  | v :: rest =>
      ((jsonStringify ind depth v).getD "null") :: jsonStringifyArr ind depth rest

def jsonStringifyObj (ind : Nat) (depth : Nat) : List (String × Json) → List String
  | [] => []
  | (k, v) :: rest =>
      match jsonStringify ind depth v with
      | some sv =>
          ("\"" ++ jsonEscape k ++ "\":" ++ (if ind = 0 then "" else " ") ++ sv)
            :: jsonStringifyObj ind depth rest
      | none => jsonStringifyObj ind depth rest

end


/-! ## Mock generator (`helpers/mock-generator.ts`, current version)

The generator walks a possibly cyclic graph of schema objects.  JavaScript
object identity is modelled by an id type `α`: a graph is a partial map
`g : α → Option (SchemaNode α)` from ids to the schema fields the generator
reads, with child schemas referenced by id.  The `visited` set of the source
is a list of `Option α`, where `none` stands for the JavaScript value
`undefined`/`null` appearing in schema position (e.g. `options[0]` of an
empty `oneOf` list); the source adds those primitives to its `Set` as well.
(JavaScript collapses all `null`s to one set member while this model tracks
one id per occurrence; the difference is observable only for degenerate
schemas that place the same primitive in several schema positions, which no
claim exercises.)  `none` from `genMockCore` means the fuel ran out; the
termination theorem for C1 shows enough fuel always exists. -/

/-- The fields of one schema object that `generateMockFromSchema` reads.
Scalar fields keep their raw JavaScript value; `items`, `properties`,
`allOf`, `oneOf`, `anyOf` are `some` exactly when the corresponding source
field is truthy, holding ids of the child schema objects. -/
structure SchemaNode (α : Type) where
  /-- The whole schema value is falsy (`!schema`), e.g. a `0`/`""`/`false`
  leaf in schema position; `null`/`undefined` are instead the `none` ref. -/
  falsy : Bool := false
  type : Json := .undefined
  format : Json := .undefined
  pattern : Json := .undefined
  contentMediaType : Json := .undefined
  enum : Json := .undefined
  minimum : Json := .undefined
  maximum : Json := .undefined
  minLength : Json := .undefined
  maxLength : Json := .undefined
  minItems : Json := .undefined
  items : Option α := none
  properties : Option (List (String × α)) := none
  allOf : Option (List α) := none
  oneOf : Option (List α) := none
  anyOf : Option (List α) := none

/-- Modelled from the spec: the injected "randomness provider" (faker) the
Mock Generator depends on — a regex-constrained string generator (`none`
models a faker failure, which the source catches), random int/float/bool,
random enum pick, and domain fakers.  Each capability is a fixed value or
function so synthesis is a pure function of the provider. -/
structure RandomProvider where
  noun : String
  fromRegExp : String → Option String
  alphanumeric : Json → Json → String
  dateTime : String
  date : String
  email : String
  uri : String
  uuid : String
  arrayElement : Json → Json
  int : Json → Json → Int
  float : Json → Json → Json
  bool : Bool

/-- A deterministic provider instance, used to state closed evaluations. -/
def rpFixed : RandomProvider where
  noun := "word"
  fromRegExp := fun _ => some "rx"
  alphanumeric := fun _ _ => "abc"
  dateTime := "2024-01-01T00:00:00.000Z"
  date := "2024-01-01"
  email := "user@example.com"
  uri := "https://example.com"
  uuid := "00000000-0000-0000-0000-000000000000"
  arrayElement := fun v => jget v "0"
  int := fun _ _ => 1
  float := fun _ _ => .num 1
  bool := true

/-- The `BINARY_STUBS` table of the source (base64 byte stubs). -/
def binaryStub : String → String
  | "png" => "iVBORw0KGgoAAAANSUhEUgAAAAEAAAABCAYAAAAfFcSJAAAADUlEQVR42mP8/5+hHgAHggJ/PchI7wAAAABJRU5ErkJggg=="
  | "jpg" => "iVBORw0KGgoAAAANSUhEUgAAAAEAAAABCAYAAAAfFcSJAAAADUlEQVR42mNkYPhfDwAChwGA60e6kgAAAABJRU5ErkJggg=="
  | "jpeg" => "iVBORw0KGgoAAAANSUhEUgAAAAEAAAABCAYAAAAfFcSJAAAADUlEQVR42mNkYPhfDwAChwGA60e6kgAAAABJRU5ErkJggg=="
  | "pdf" => "JVBERi0xLjAKMSAwIG9iajw8L1R5cGUvQ2F0YWxvZy9QYWdlcyAyIDAgUj4+ZW5kb2JqMiAwIG9iajw8L1R5cGUvUGFnZXMvS2lkc1szIDAgUl0vQ291bnQgMT4+ZW5kb2JqMyAwIG9iajw8L1R5cGUvUGFnZS9QYXJlbnQgMiAwIFIvTWVkaWFCb3hbMCAwIDYxMiA3OTJdPj5lbmRvYmoKdHJhaWxlcjw8L1Jvb3QgMSAwIFI+Pgplb2YK"
  | "txt" => "U2VsZi1IZWFsaW5nIEFQSSBNb2NrIERhdGE="
  | _ => "iVBORw0KGgoAAAANSUhEUgAAAAEAAAABCAYAAAAfFcSJAAAADUlEQVR42mP8/5+hHgAHggJ/PchI7wAAAABJRU5ErkJggg=="

/-- File-kind selection of the binary/file branch: `contentMediaType` first
(`includes` keyword matching), else field-name hints, else png defaults.  A
truthy non-string `contentMediaType` would make JavaScript throw inside
`.includes`; that degenerate input is modelled as the png default. -/
def binaryKind (contentMediaType : Json) (fieldName : Option String) : String × String :=
  if contentMediaType.truthy then
    match contentMediaType with
    | .str s =>
        if strIncludes s "pdf" then ("pdf", "application/pdf")
        else if strIncludes s "image/jpeg" || strIncludes s "image/jpg" then ("jpg", "image/jpeg")
        else if strIncludes s "image/png" then ("png", "image/png")
        else if strIncludes s "text/plain" then ("txt", "text/plain")
        else ("png", "image/png")
    | _ => ("png", "image/png")
  else
    match fieldName with
    | some fn =>
        if fn ≠ "" then
          let lowerName := strToLower fn
          if strIncludes lowerName "pdf" then ("pdf", "application/pdf")
          else if strIncludes lowerName "jpg" || strIncludes lowerName "jpeg" then ("jpg", "image/jpeg")
          else if strIncludes lowerName "txt" || strIncludes lowerName "text" then ("txt", "text/plain")
          else ("png", "image/png")
        else ("png", "image/png")
    | none => ("png", "image/png")

/-- The data-URI string returned by the binary/file branch. -/
def binaryDataUri (contentMediaType : Json) (fieldName : Option String) : String :=
  let (ext, mimeType) := binaryKind contentMediaType fieldName
  "data:" ++ mimeType ++ ";base64," ++ binaryStub ext

/-- Number of iterations of `for (let i = 0; i < count; i++)` where `count`
is `schema.minItems ?? 1`: JavaScript runs `max(count, 0)` iterations for an
integral numeric bound and none for the non-numeric degenerate inputs
reachable here. -/
def jsLoopCount : Json → Nat
  | .num n => n.toNat
  | _ => 0

/-- `Object.assign(acc, v)`: copy the own enumerable properties of `v` into
the accumulator (object fields, array/string index properties, nothing for
other primitives). -/
def jsAssign (acc : List (String × Json)) (v : Json) : List (String × Json) :=
  (jsEntries v).foldl (fun a p => objInsertG a p.1 p.2) acc

/-- The array-item loop of the generator, parameterized by the recursive
call at the decremented fuel: `count` calls on the items schema, each on
the same `visited` (the source hands every element `new Set(visited)`, a
fresh copy whose mutations are discarded). -/
def genMockItemsF {α : Type}
    (core : Option α → List (Option α) → Option String → Option (Json × List (Option α))) :
    Option α → List (Option α) → Option String → Nat → Option (List Json)
  | _, _, _, 0 => some []
  | ref, visited, fieldName, n + 1 =>
    match core ref visited fieldName with
    | some (v, _) =>
        match genMockItemsF core ref visited fieldName n with
        | some rest => some (v :: rest)
        | none => none
    | none => none

/-- The object-property loop: recurse with the property key as the
field-name hint, threading the one shared visited set. -/
def genMockPropsF {α : Type}
    (core : Option α → List (Option α) → Option String → Option (Json × List (Option α))) :
    List (String × α) → List (Option α) → List (String × Json) →
    Option (List (String × Json) × List (Option α))
  | [], visited, acc => some (acc, visited)
  | (k, pid) :: rest, visited, acc =>
    match core (some pid) visited (some k) with
    | some (v, visited') => genMockPropsF core rest visited' (objInsertG acc k v)
    | none => none

/-- The `allOf` loop: synthesize every member (sharing the visited set) and
shallow-merge the results with `Object.assign`. -/
def genMockAllF {α : Type}
    (core : Option α → List (Option α) → Option String → Option (Json × List (Option α))) :
    List α → List (Option α) → Option String → List (String × Json) →
    Option (List (String × Json) × List (Option α))
  | [], visited, _, acc => some (acc, visited)
  | sid :: rest, visited, fieldName, acc =>
    match core (some sid) visited fieldName with
    | some (v, visited') => genMockAllF core rest visited' fieldName (jsAssign acc v)
    | none => none

/-- `generateMockFromSchema(schema, visited, fieldName)` of the current
mock generator, with a fuel parameter making the recursion witnessable:
`none` means fuel ran out (never happens with enough fuel, see the C1
theorem).  Returns the synthesized value together with the visited set as
the caller observes it after the call (the source mutates the shared
`Set`). -/
def genMockCore {α : Type} [DecidableEq α] (rp : RandomProvider) (g : α → Option (SchemaNode α)) :
    Nat → Option α → List (Option α) → Option String → Option (Json × List (Option α))
  | 0, _, _, _ => none
  | fuel + 1, ref, visited, fieldName =>
    -- `if (visited.has(schema)) return {}`
    if visited.contains ref then some (.obj [], visited)
    else
      -- `visited.add(schema)` (mutates the set the caller passed in)
      let visited := ref :: visited
      match ref with
      | none => some (.null, visited)            -- `if (!schema) return null`
      | some id =>
        match g id with
        | none => some (.null, visited)          -- dangling id: no JavaScript counterpart
        | some node =>
          if node.falsy then some (.null, visited)   -- `if (!schema) return null`
          else if jeqStr node.format "binary" || jeqStr node.type "file" then
            some (.str (binaryDataUri node.contentMediaType fieldName), visited)
          else if jeqStr node.type "string" then
            let v : Json :=
              if node.pattern.truthy then
                match node.pattern with
                | .str s =>
                    match rp.fromRegExp s with
                    | some r => .str r
                    | none => .str rp.noun       -- regex too complex for faker: fallback
                | _ => .str rp.noun              -- non-string pattern: faker throws, caught, fallback
              else if node.minLength.truthy || node.maxLength.truthy then
                .str (rp.alphanumeric (jsOr node.minLength (.num 1)) (jsOr node.maxLength (.num 20)))
              else if jeqStr node.format "date-time" then .str rp.dateTime
              else if jeqStr node.format "date" then .str rp.date
              else if jeqStr node.format "email" then .str rp.email
              else if jeqStr node.format "uri" then .str rp.uri
              else if jeqStr node.format "uuid" then .str rp.uuid
              else if node.enum.truthy then rp.arrayElement node.enum
              else .str rp.noun
            some (v, visited)
          else if jeqStr node.type "integer" || jeqStr node.type "number" then
            let mn := jsNullish node.minimum (.num 1)
            let mx := jsNullish node.maximum (.num 100)
            if jeqStr node.type "integer" then some (.num (rp.int mn mx), visited)
            else some (rp.float mn mx, visited)
          else if jeqStr node.type "boolean" then
            some (.bool rp.bool, visited)
          else if jeqStr node.type "array" && node.items.isSome then
            -- each element's recursive call receives `new Set(visited)`, a fresh copy
            let count := jsLoopCount (jsNullish node.minItems (.num 1))
            match genMockItemsF (fun r w f => genMockCore rp g fuel r w f)
                node.items visited fieldName count with
            | some items => some (.arr items, visited)
            | none => none
          else if jeqStr node.type "object" || node.properties.isSome then
            -- one mutable visited set is shared across all properties
            match genMockPropsF (fun r w f => genMockCore rp g fuel r w f)
                (node.properties.getD []) visited [] with
            | some (fields, vis) => some (.obj fields, vis)
            | none => none
          else if node.allOf.isSome then
            match genMockAllF (fun r w f => genMockCore rp g fuel r w f)
                (node.allOf.getD []) visited fieldName [] with
            | some (merged, vis) => some (.obj merged, vis)
            | none => none
          else if node.oneOf.isSome || node.anyOf.isSome then
            -- `const options = schema.oneOf || schema.anyOf;` pick `options[0]`
            let options := if node.oneOf.isSome then node.oneOf.getD [] else node.anyOf.getD []
            genMockCore rp g fuel ((options.head?).map some |>.getD none) visited fieldName
          else some (.null, visited)

/-- The item loop at the fuel level below `fuel + 1` (the view the earlier
lemmas use). -/
def genMockItems {α : Type} [DecidableEq α] (rp : RandomProvider)
    (g : α → Option (SchemaNode α)) (fuel : Nat) :
    Option α → List (Option α) → Option String → Nat → Option (List Json) :=
  genMockItemsF (fun r w f => genMockCore rp g fuel r w f)

/-- The property loop at one fuel level. -/
def genMockProps {α : Type} [DecidableEq α] (rp : RandomProvider)
    (g : α → Option (SchemaNode α)) (fuel : Nat) :
    List (String × α) → List (Option α) → List (String × Json) →
    Option (List (String × Json) × List (Option α)) :=
  genMockPropsF (fun r w f => genMockCore rp g fuel r w f)

/-- The `allOf` loop at one fuel level. -/
def genMockAll {α : Type} [DecidableEq α] (rp : RandomProvider)
    (g : α → Option (SchemaNode α)) (fuel : Nat) :
    List α → List (Option α) → Option String → List (String × Json) →
    Option (List (String × Json) × List (Option α)) :=
  genMockAllF (fun r w f => genMockCore rp g fuel r w f)

theorem genMockItems_zero {α : Type} [DecidableEq α] (rp : RandomProvider)
    (g : α → Option (SchemaNode α)) (fuel : Nat) (ref : Option α)
    (visited : List (Option α)) (fieldName : Option String) :
    genMockItems rp g fuel ref visited fieldName 0 = some [] := rfl

theorem genMockItems_succ {α : Type} [DecidableEq α] (rp : RandomProvider)
    (g : α → Option (SchemaNode α)) (fuel : Nat) (ref : Option α)
    (visited : List (Option α)) (fieldName : Option String) (n : Nat) :
    genMockItems rp g fuel ref visited fieldName (n + 1) =
      match genMockCore rp g fuel ref visited fieldName with
      | some (v, _) =>
          match genMockItems rp g fuel ref visited fieldName n with
          | some rest => some (v :: rest)
          | none => none
      | none => none := rfl

theorem genMockProps_nil {α : Type} [DecidableEq α] (rp : RandomProvider)
    (g : α → Option (SchemaNode α)) (fuel : Nat)
    (visited : List (Option α)) (acc : List (String × Json)) :
    genMockProps rp g fuel [] visited acc = some (acc, visited) := rfl

theorem genMockProps_cons {α : Type} [DecidableEq α] (rp : RandomProvider)
    (g : α → Option (SchemaNode α)) (fuel : Nat) (k : String) (pid : α)
    (rest : List (String × α)) (visited : List (Option α)) (acc : List (String × Json)) :
    genMockProps rp g fuel ((k, pid) :: rest) visited acc =
      match genMockCore rp g fuel (some pid) visited (some k) with
      | some (v, visited') => genMockProps rp g fuel rest visited' (objInsertG acc k v)
      | none => none := rfl

theorem genMockAll_nil {α : Type} [DecidableEq α] (rp : RandomProvider)
    (g : α → Option (SchemaNode α)) (fuel : Nat)
    (visited : List (Option α)) (fieldName : Option String) (acc : List (String × Json)) :
    genMockAll rp g fuel [] visited fieldName acc = some (acc, visited) := rfl

theorem genMockAll_cons {α : Type} [DecidableEq α] (rp : RandomProvider)
    (g : α → Option (SchemaNode α)) (fuel : Nat) (sid : α) (rest : List α)
    (visited : List (Option α)) (fieldName : Option String) (acc : List (String × Json)) :
    genMockAll rp g fuel (sid :: rest) visited fieldName acc =
      match genMockCore rp g fuel (some sid) visited fieldName with
      | some (v, visited') => genMockAll rp g fuel rest visited' fieldName (jsAssign acc v)
      | none => none := rfl


/-! ## Output model

The collection/request/response records populated by the converter.  The
constructors `makeRESTRequest`, `makeCollection` and
`makeHoppRESTResponseOriginalRequest` live outside the analyzed source;
modelled from the spec (§3 data model) as plain record constructors over
exactly the fields the converter populates.  Fields that the untyped source
fills with arbitrary JavaScript values are typed `Json`. -/

structure HoppRESTParam where
  key : Json
  value : Json
  active : Bool
  description : Json
deriving DecidableEq

structure HoppRESTHeader where
  key : Json
  value : Json
  active : Bool
  description : Json
deriving DecidableEq

structure HoppRESTRequestVariable where
  key : Json
  value : Json
  active : Bool
deriving DecidableEq

structure FormDataKeyValue where
  key : Json
  value : Json
  active : Bool
  isFile : Bool
deriving DecidableEq

/-- The auth variants the mapper produces (plus the collection-level
`inherit`, whose root instance carries the resolved base URL). -/
inductive HoppRESTAuth where
  | authNone (authActive : Bool)
  | inheritAuth (authActive : Bool) (baseUrl : Option String)
  | bearer (authActive : Bool) (token : String)
  | apiKey (authActive : Bool) (key : Json) (value : String) (addTo : String)
  | basic (authActive : Bool) (username : String) (password : String)
  | oauth2 (authActive : Bool) (addTo : String) (grantType : String)
      (authUrl : Json) (accessTokenUrl : Json)
      (clientID : String) (clientSecret : String) (scope : String)
deriving DecidableEq

/-- Request bodies: the `{contentType: null, body: null}` empty shape, a
textual body, or multipart form-data entries. -/
inductive HoppRESTReqBody where
  | noBody
  | text (contentType : String) (body : Json)
  | formData (contentType : String) (body : List FormDataKeyValue)
deriving DecidableEq

structure HoppRESTResponseOriginalRequest where
  name : Json
  auth : HoppRESTAuth
  body : HoppRESTReqBody
  endpoint : String
  params : List HoppRESTParam
  headers : List HoppRESTHeader
  method : String
  requestVariables : List HoppRESTRequestVariable
deriving DecidableEq

structure HoppRESTResponse where
  name : Json
  status : String
  code : Int
  headers : List HoppRESTHeader
  body : Json
  originalRequest : HoppRESTResponseOriginalRequest
deriving DecidableEq

structure HoppRESTRequest where
  name : Json
  description : Json
  method : String
  endpoint : String
  params : List HoppRESTParam
  headers : List HoppRESTHeader
  auth : HoppRESTAuth
  body : HoppRESTReqBody
  preRequestScript : String
  testScript : String
  requestVariables : List HoppRESTRequestVariable
  responses : List (String × HoppRESTResponse)
deriving DecidableEq

/-- A collection: name, description, auth, headers, variables, child
folders and requests (`makeCollection`'s fields). -/
inductive HoppCollection where
  | make (name : Json) (description : Json) (auth : HoppRESTAuth)
      (headers : List HoppRESTHeader) (colVariables : List HoppRESTRequestVariable)
      (folders : List HoppCollection) (requests : List HoppRESTRequest)

def HoppCollection.name : HoppCollection → Json
  | .make n _ _ _ _ _ _ => n

def HoppCollection.description : HoppCollection → Json
  | .make _ d _ _ _ _ _ => d

def HoppCollection.auth : HoppCollection → HoppRESTAuth
  | .make _ _ a _ _ _ _ => a

def HoppCollection.folders : HoppCollection → List HoppCollection
  | .make _ _ _ _ _ f _ => f

def HoppCollection.requests : HoppCollection → List HoppRESTRequest
  | .make _ _ _ _ _ _ r => r

/-- Modelled from the spec: the status-code → reason-phrase lookup
(`utils/statusCodes`, outside the analyzed source) — "human status phrase
derived from the code". -/
def getStatusCodeReasonPhrase : Int → String
  | 200 => "OK"
  | 201 => "Created"
  | 204 => "No Content"
  | 301 => "Moved Permanently"
  | 400 => "Bad Request"
  | 401 => "Unauthorized"
  | 403 => "Forbidden"
  | 404 => "Not Found"
  | 500 => "Internal Server Error"
  | _ => ""

/-- Modelled from the spec: the `knownContentTypes` table of the data
package (outside the analyzed source): the recognized body content types,
including the two form-encoded types the body synthesizer special-cases. -/
def knownContentTypes : List String :=
  ["application/json", "application/ld+json", "application/hal+json",
   "application/vnd.api+json", "application/xml", "text/xml",
   "application/x-www-form-urlencoded", "multipart/form-data",
   "text/html", "text/plain"]

/-! ## The generator on concrete (tree-shaped) schema values

`parseOpenAPIV3Body`/`parseOpenAPIV2Body` call `generateMockFromSchema` on
schema subvalues of the parsed document.  Such values are trees; their nodes
are identified by the path of child positions from the schema root, giving
an instance of the id-graph model above in which JavaScript object identity
is exactly path identity. -/

/-- The subvalue of a Json tree at a path of child positions. -/
def jsonSub : Json → List Nat → Option Json
  | v, [] => some v
  | .obj fields, i :: p =>
      match fields.get? i with
      | some f => jsonSub f.2 p
      | none => none
  | .arr l, i :: p =>
      match l.get? i with
      | some e => jsonSub e p
      | none => none
  | _, _ :: _ => none

/-- Position of the field holding key `k` (first occurrence, matching
`jget`). -/
def fieldIdx (fields : List (String × Json)) (k : String) : Option Nat :=
  fields.findIdx? (fun f => f.1 = k)

/-- Reference (path) to the truthy member `k` of the node `v` at path `p`,
`none` when the member is absent or falsy.  A truthy member forces `v` to
be an object (`jget` of a non-index key is `undefined` otherwise). -/
def childRef (v : Json) (p : List Nat) (k : String) : Option (List Nat) :=
  match v with
  | .obj fields =>
      if (jget v k).truthy then (fieldIdx fields k).map (fun i => p ++ [i]) else none
  | _ => none

/-- References to `Object.entries` of the member `k` (used for
`properties`).  `Object.entries` of a truthy primitive member would yield
fresh strings rather than subnodes; that degenerate input is modelled as no
entries. -/
def memberEntryRefs (v : Json) (p : List Nat) (k : String) : List (String × List Nat) :=
  match v with
  | .obj fields =>
      match fieldIdx fields k with
      | some i =>
          (match jget v k with
           | .obj pf => pf.enum.map fun q => (q.2.1, (p ++ [i]) ++ [q.1])
           | .arr l => l.enum.map fun q => (toString q.1, (p ++ [i]) ++ [q.1])
           | _ => [])
      | none => []
  | _ => []

/-- References to the elements of the array member `k` (used for `allOf`,
`oneOf`, `anyOf`).  A truthy non-array member is modelled as no elements
(JavaScript would throw iterating `allOf`, and indexes `oneOf[0]` to
`undefined`; only the latter is reachable through the analyzed claims). -/
def memberElemRefs (v : Json) (p : List Nat) (k : String) : List (List Nat) :=
  match v with
  | .obj fields =>
      match fieldIdx fields k with
      | some i =>
          (match jget v k with
           | .arr l => l.enum.map fun q => (p ++ [i]) ++ [q.1]
           | _ => [])
      | none => []
  | _ => []

/-- The schema-node view of the tree node at path `p`. -/
def schemaViewAt (root : Json) (p : List Nat) : Option (SchemaNode (List Nat)) :=
  (jsonSub root p).map fun v =>
    { falsy := !v.truthy
      type := jget v "type"
      format := jget v "format"
      pattern := jget v "pattern"
      contentMediaType := jget v "contentMediaType"
      enum := jget v "enum"
      minimum := jget v "minimum"
      maximum := jget v "maximum"
      minLength := jget v "minLength"
      maxLength := jget v "maxLength"
      minItems := jget v "minItems"
      items := childRef v p "items"
      properties :=
        if (jget v "properties").truthy then some (memberEntryRefs v p "properties") else none
      allOf := if (jget v "allOf").truthy then some (memberElemRefs v p "allOf") else none
      oneOf := if (jget v "oneOf").truthy then some (memberElemRefs v p "oneOf") else none
      anyOf := if (jget v "anyOf").truthy then some (memberElemRefs v p "anyOf") else none }

mutual

/-- Number of nodes of a Json tree (an upper bound on any visited-set
descent, hence sufficient fuel). -/
def jsonNodeCount : Json → Nat
  | .arr l => 1 + jsonNodeCountElems l
  | .obj f => 1 + jsonNodeCountFields f
  | _ => 1

def jsonNodeCountElems : List Json → Nat
  | [] => 0
  | v :: r => jsonNodeCount v + jsonNodeCountElems r

def jsonNodeCountFields : List (String × Json) → Nat
  | [] => 0
  | f :: r => jsonNodeCount f.2 + jsonNodeCountFields r

end

/-- `generateMockFromSchema(schema, new Set(), fieldName)` on a concrete
schema value: the id-graph generator on the path instance, with fuel
dominating every descent (each call path visits distinct tree nodes; the C1
termination theorem makes the sufficiency of any fuel above the live node
count precise). -/
def generateMockFromSchema (rp : RandomProvider) (schema : Json) (fieldName : Option String) : Json :=
  ((genMockCore rp (schemaViewAt schema) (jsonNodeCount schema + 1)
      (some ([] : List Nat)) [] fieldName).map Prod.fst).getD .null


/-! ## The converter (`importers/openapi/index.ts`)

Every function below mirrors one source function of the converter.  The
`Except String` monad carries JavaScript exceptions (the payload is just a
tag such as "TypeError"); the worker plumbing of `validateDocs` /
`dereferenceDocs` is a message channel and is abstracted as the adapter
parameters `validate` / `deref` of the pipeline (worker-backed adapters may
reject, the direct ones are total), exactly the boundary §4.3/§4.4 of the
spec describes.  `console.log`/`console.warn` calls (including the
`hasUnresolvedRefs` warning scan) have no semantic effect and are omitted. -/

def IMPORTER_INVALID_FILE_FORMAT : String := "importer/invalid_file_format"

def OPENAPI_DEREF_ERROR : String := "openapi/deref_error"

/-- `parseOpenAPIDocContent`: strict JSON parse first, else YAML, over
abstract parser capabilities. -/
def parseOpenAPIDocContent (pJ pY : String → Option Json) (s : String) : Option Json :=
  match pJ s with
  | some d => some d
  | none => pY s

def isOpenAPIV2Document (d : Json) : Bool :=
  objectHasProperty d "swagger" &&
    (match jget d "swagger" with | .str _ => true | _ => false)

def isOpenAPIV3Document (d : Json) : Bool :=
  objectHasProperty d "openapi" &&
    (match jget d "openapi" with | .str _ => true | _ => false)

/-- The classifier check of the validation loop: `objectHasProperty(docObj,
"paths") && (isOpenAPIV2Document(docObj) || isOpenAPIV3Document(docObj) ||
objectHasProperty(docObj, "info"))`. -/
def isValidOpenAPISpec (d : Json) : Bool :=
  objectHasProperty d "paths" &&
    (isOpenAPIV2Document d || isOpenAPIV3Document d || objectHasProperty d "info")

/-- The per-document validation loop of `hoppOpenAPIImporter`: classify,
validate, and on any failure (classification throw, or validation failure
with a rethrow for paths-less documents) push the original document — the
outer catch swallows everything. -/
def validationStage (validate : Json → Except String Json) (docs : List Json) : List Json :=
  docs.map fun docObj =>
    let attempt : Except String Json :=
      if ¬ isValidOpenAPISpec docObj then .error "INVALID_OPENAPI_SPEC"
      else
        match validate docObj with
        | .ok v => .ok v
        | .error e => if objectHasProperty docObj "paths" then .ok docObj else .error e
    match attempt with
    | .ok v => v
    | .error _ => docObj

/-- The per-document dereference loop: on failure fall back to the original
document. -/
def dereferenceStage (deref : Json → Except String Json) (docs : List Json) : List Json :=
  docs.map fun docObj =>
    match deref docObj with
    | .ok v => v
    | .error _ => docObj

/-- `replaceOpenApiPathTemplating`: global replacement of `{` by `<<` and
`}` by `>>`. -/
def replaceOpenApiPathTemplating (s : String) : String :=
  String.mk (s.toList.foldr (fun c acc =>
    (if c = Char.ofNat 123 then ['<', '<']
     else if c = Char.ofNat 125 then ['>', '>']
     else [c]) ++ acc) [])

/-- The list the fp-ts `A.filterMap` combinators iterate when handed
`info.parameters ?? []`: array elements; a string is treated as a
pseudo-array of characters; any other non-array iterates nothing (fp-ts
indexes `0 ≤ i < as.length` and a missing `length` is not `> i`). -/
def paramsListOf (info : Json) : List Json :=
  match jsNullish (jget info "parameters") (.arr []) with
  | .arr l => l
  | .str s => s.toList.map (fun c => Json.str (String.mk [c]))
  | _ => []

/-- `parseOpenAPIParams`: keep `in === "query"` parameters as blank-valued
params. -/
def parseOpenAPIParams : List Json → Except String (List HoppRESTParam)
  | [] => .ok []
  | p :: rest => do
      let inV ← jaccess p "in"
      let tail ← parseOpenAPIParams rest
      if jeqStr inV "query" then
        pure ({ key := jget p "name", value := .str "", active := true,
                description := jsNullish (jget p "description") (.str "") } :: tail)
      else pure tail

/-- `parseOpenAPIVariables`: keep `in === "path"` parameters as request
variables. -/
def parseOpenAPIVariables : List Json → Except String (List HoppRESTRequestVariable)
  | [] => .ok []
  | p :: rest => do
      let inV ← jaccess p "in"
      let tail ← parseOpenAPIVariables rest
      if jeqStr inV "path" then
        pure ({ key := jget p "name", value := .str "", active := true } :: tail)
      else pure tail

/-- `parseOpenAPIHeaders`: keep `in === "header"` parameters as blank-valued
headers. -/
def parseOpenAPIHeaders : List Json → Except String (List HoppRESTHeader)
  | [] => .ok []
  | p :: rest => do
      let inV ← jaccess p "in"
      let tail ← parseOpenAPIHeaders rest
      if jeqStr inV "header" then
        pure ({ key := jget p "name", value := .str "", active := true,
                description := jsNullish (jget p "description") (.str "") } :: tail)
      else pure tail

/-- The loop body of `parseOpenAPIV3Responses` for one `[key, value]` entry
of `op.responses`: the map key is the description when present, else the
response key; the code is the numeric key or 200. -/
def buildV3Response (orig : HoppRESTResponseOriginalRequest) (key : String) (value : Json) :
    Except String (String × HoppRESTResponse) := do
  let content ← jaccess value "content"
  let contentType? := (jsKeysTot (jsNullish content (.obj []))).head?
  let body := if content.nullish then Json.undefined
              else jget content (contentType?.getD "undefined")
  let name := jsNullish (jget value "description") (.str key)
  let code := (parseNumLocal key).getD 200
  let status := getStatusCodeReasonPhrase code
  let headers : List HoppRESTHeader :=
    [{ key := .str "content-type", value := .str (contentType?.getD "application/json"),
       active := true, description := .str "" }]
  -- `JSON.stringify(body ?? "")` never throws on these acyclic values
  let stringifiedBody := (jsonStringify 0 1 (jsNullish body (.str ""))).getD ""
  pure (jsToString name,
    { name := name, status := status, code := code, headers := headers,
      body := .str stringifiedBody, originalRequest := orig })

def parseOpenAPIV3Responses (op : Json) (orig : HoppRESTResponseOriginalRequest) :
    Except String (List (String × HoppRESTResponse)) := do
  let responses := jget op "responses"
  if ¬ responses.truthy then pure []
  else
    (jsEntries responses).foldlM (fun res kv => do
      let entry ← buildV3Response orig kv.1 kv.2
      pure (objInsertG res entry.1 entry.2)) []

/-- The loop body of `parseOpenAPIV2Responses` (dialect 2.x reads
`examples` instead of `content` and keeps the raw example value). -/
def buildV2Response (orig : HoppRESTResponseOriginalRequest) (key : String) (value : Json) :
    Except String (String × HoppRESTResponse) := do
  let examples ← jaccess value "examples"
  let contentType? := (jsKeysTot (jsNullish examples (.obj []))).head?
  let body := if examples.nullish then Json.undefined
              else jget examples (contentType?.getD "undefined")
  let name := jsNullish (jget value "description") (.str key)
  let code := (parseNumLocal key).getD 200
  let status := getStatusCodeReasonPhrase code
  let headers : List HoppRESTHeader :=
    [{ key := .str "content-type", value := .str (contentType?.getD "application/json"),
       active := true, description := .str "" }]
  pure (jsToString name,
    { name := name, status := status, code := code, headers := headers,
      body := jsNullish body (.str ""), originalRequest := orig })

def parseOpenAPIV2Responses (op : Json) (orig : HoppRESTResponseOriginalRequest) :
    Except String (List (String × HoppRESTResponse)) := do
  let responses := jget op "responses"
  if ¬ responses.truthy then pure []
  else
    (jsEntries responses).foldlM (fun res kv => do
      let entry ← buildV2Response orig kv.1 kv.2
      pure (objInsertG res entry.1 entry.2)) []

/-- `isOpenAPIV3Operation`: dispatches on the document's `openapi` marker. -/
def isOpenAPIV3Operation (doc : Json) : Bool :=
  objectHasProperty doc "openapi" &&
    (match jget doc "openapi" with | .str s => strStartsWith s "3." | _ => false)

def parseOpenAPIResponses (doc op : Json) (orig : HoppRESTResponseOriginalRequest) :
    Except String (List (String × HoppRESTResponse)) :=
  if isOpenAPIV3Operation doc then parseOpenAPIV3Responses op orig
  else parseOpenAPIV2Responses op orig

def parseOpenAPIV3BodyFormData (contentType : String) (media : Json) :
    Except String HoppRESTReqBody := do
  let schema ← jaccess media "schema"
  if ¬ schema.truthy || ¬ jeqStr (jget schema "type") "object" then
    if contentType = "application/x-www-form-urlencoded" then pure (.text contentType (.str ""))
    else pure (.formData contentType [])
  else
    let keys := jsKeysTot (jsNullish (jget schema "properties") (.obj []))
    if contentType = "application/x-www-form-urlencoded" then
      pure (.text contentType (.str (String.intercalate "\n" (keys.map (fun k => k ++ ": ")))))
    else
      pure (.formData contentType (keys.map fun k =>
        { key := .str k, value := .str "", active := true, isFile := false }))

def parseOpenAPIV3Body (rp : RandomProvider) (op : Json) : Except String HoppRESTReqBody := do
  let requestBody := jget op "requestBody"
  let objs := jsEntries (jsNullish (jsOptChain requestBody "content") (.obj []))
  match objs with
  | [] => pure .noBody
  | (contentType, media) :: _ =>
      if ¬ knownContentTypes.contains contentType then pure .noBody
      else if contentType = "multipart/form-data" ∨
              contentType = "application/x-www-form-urlencoded" then
        parseOpenAPIV3BodyFormData contentType media
      else do
        let schema ← jaccess media "schema"
        if schema.truthy then
          let mockData := generateMockFromSchema rp schema none
          pure (.text contentType (match mockData with
            | .str s => .str s
            | m => match jsonStringify 2 1 m with
                | some s => .str s
                | none => .undefined))
        else pure (.text contentType (.str ""))

/-- The `filter` of Swagger-2.0 parameters by `in` discriminator:
`!("$ref" in p) && p.in === place` (the `in` operator throws on primitive
elements). -/
def filterV2Params (place : String) : List Json → Except String (List Json)
  | [] => .ok []
  | p :: rest => do
      let hasRef ← jsInOp "$ref" p
      let tail ← filterV2Params place rest
      if ¬ hasRef && jeqStr (jget p "in") place then pure (p :: tail) else pure tail

/-- The `find` of the `in === "body"` parameter (short-circuiting). -/
def findV2BodyParam : List Json → Except String (Option Json)
  | [] => .ok none
  | p :: rest => do
      let hasRef ← jsInOp "$ref" p
      if ¬ hasRef && jeqStr (jget p "in") "body" then pure (some p)
      else findV2BodyParam rest

def parseOpenAPIV2Body (rp : RandomProvider) (op : Json) : Except String HoppRESTReqBody := do
  let paramsV := jget op "parameters"
  -- `op.parameters?.filter(...)`: undefined when parameters is nullish,
  -- a TypeError when it is a non-array (no `.filter` method)
  let formDataParams? ←
    if paramsV.nullish then pure none
    else match paramsV with
      | .arr l => do
          let fl ← filterV2Params "formData" l
          pure (some fl)
      | _ => Except.error "TypeError"
  match formDataParams? with
  | some (p0 :: prest) =>
      let bodyParams := (p0 :: prest).map fun param =>
        { key := jget param "name",
          value := generateMockFromSchema rp param
            (match jget param "name" with | .str s => some s | _ => none),
          active := true,
          isFile := jeqStr (jget param "type") "file" || jeqStr (jget param "format") "binary" }
      pure (.formData "multipart/form-data" bodyParams)
  | _ => do
      let bodyParam? ←
        if paramsV.nullish then pure none
        else match paramsV with
          | .arr l => findV2BodyParam l
          | _ => Except.error "TypeError"
      match bodyParam? with
      | some bp =>
          let schema := jget bp "schema"
          if schema.truthy then
            let mockData := generateMockFromSchema rp schema none
            pure (.text "application/json" (match mockData with
              | .str s => .str s
              | m => match jsonStringify 2 1 m with
                  | some s => .str s
                  | none => .undefined))
          else pure .noBody
      | none => pure .noBody

def parseOpenAPIBody (rp : RandomProvider) (doc op : Json) : Except String HoppRESTReqBody :=
  if isOpenAPIV3Operation doc then parseOpenAPIV3Body rp op
  else parseOpenAPIV2Body rp op

/-- The OAuth2 flow-name table (`grantTypeMap`). -/
def grantTypeMap : String → Option String
  | "implicit" => some "IMPLICIT"
  | "password" => some "PASSWORD"
  | "application" => some "CLIENT_CREDENTIALS"
  | "clientCredentials" => some "CLIENT_CREDENTIALS"
  | "accessCode" => some "AUTHORIZATION_CODE"
  | "authorizationCode" => some "AUTHORIZATION_CODE"
  | _ => none

/-- The scheme-to-auth dispatch of `parseOpenAPIAuth` (step 4 of the
source), in the source's order: bearer, apiKey, basic, oauth2, none. -/
def mapSchemeToAuth (scheme : Json) : Except String HoppRESTAuth :=
  if jeqStr (jget scheme "type") "http" && jeqStr (jget scheme "scheme") "bearer" then
    pure (.bearer true "<<bearer_token>>")
  else if jeqStr (jget scheme "type") "apiKey" then
    pure (.apiKey true (jsOr (jget scheme "name") (.str "api_key")) "<<api_key_value>>"
      (if jeqStr (jget scheme "in") "query" then "QUERY_PARAMS" else "HEADERS"))
  else if jeqStr (jget scheme "type") "http" && jeqStr (jget scheme "scheme") "basic" then
    pure (.basic true "<<username>>" "<<password>>")
  else if jeqStr (jget scheme "type") "oauth2" then do
    -- `scheme.flows || {[scheme.flow]: scheme}`
    let flows := jsOr (jget scheme "flows") (.obj [(jsToString (jget scheme "flow"), scheme)])
    let flowType? := (jsKeysTot flows).head?
    let flowObj := jget flows (flowType?.getD "undefined")
    let grantType := (grantTypeMap (flowType?.getD "undefined")).getD "AUTHORIZATION_CODE"
    let authUrl ← jaccess flowObj "authorizationUrl"
    let tokenUrl ← jaccess flowObj "tokenUrl"
    let scopes ← jaccess flowObj "scopes"
    pure (.oauth2 true "HEADERS" grantType
      (jsOr authUrl (.str "<<auth_url>>"))
      (jsOr tokenUrl (.str "<<token_url>>"))
      "<<client_id>>" "<<client_secret>>"
      (String.intercalate " " (jsKeysTot (jsOr scopes (.obj [])))))
  else pure (.authNone true)

/-- `parseOpenAPIAuth`: operation security, else document security; resolve
the first named requirement in the scheme registry; dispatch on its type. -/
def parseOpenAPIAuth (doc op : Json) : Except String HoppRESTAuth := do
  let security := jsNullish (jget op "security") (jget doc "security")
  if ¬ security.truthy || jeqNum (jget security "length") 0 then
    pure (.authNone true)
  else do
    let securityRequirement := jget security "0"
    let keys ← jsKeysE securityRequirement
    let schemeName? := keys.head?
    let schemes := jsOr (jsOptChain (jget doc "components") "securitySchemes")
      (jsOr (jget doc "securityDefinitions") (.obj []))
    let scheme := jget schemes (schemeName?.getD "undefined")
    if ¬ scheme.truthy then pure (.authNone true)
    else mapSchemeToAuth scheme

/-- `v?.trim()`: undefined on nullish, TypeError on a non-string. -/
def jsOptTrim (v : Json) : Except String Json :=
  if v.nullish then pure .undefined
  else match v with
    | .str s => pure (.str (strTrim s))
    | _ => Except.error "TypeError"

/-- `parseOpenAPIUrl`: the base the request endpoints are built from —
Swagger host+basePath, else the first server URL (unless missing or "./"),
else the `<<baseUrl>>` placeholder. -/
def parseOpenAPIUrl (doc : Json) : Except String Json :=
  if objectHasProperty doc "swagger" then do
    let hostT ← jsOptTrim (jget doc "host")
    let basePathT ← jsOptTrim (jget doc "basePath")
    let host := jsOr hostT (.str "<<baseUrl>>")
    let basePath := jsOr basePathT (.str "")
    pure (.str (jsToString host ++ jsToString basePath))
  else if objectHasProperty doc "servers" then
    let serverUrl := jsOptChain (jsOptChain (jget doc "servers") "0") "url"
    pure (if ¬ serverUrl.truthy || jeqStr serverUrl "./" then .str "<<baseUrl>>" else serverUrl)
  else pure (.str "<<baseUrl>>")

/-- `extractBaseUrl`: 3.x servers (with fallback-origin substitution), else
Swagger host+schemes+basePath, else the fallback origin or "".  Used only
for the collection-level base URL. -/
def extractBaseUrl (spec : Json) (fallbackBaseUrl : Option String) : Except String String := do
  let servers ← jaccess spec "servers"
  if servers.truthy && jsNumGt (jget servers "length") 0 then do
    let first := jget servers "0"
    let serverUrl ← jaccess first "url"
    let su ← asStrE serverUrl
    let fbTruthy := match fallbackBaseUrl with | some s => s ≠ "" | none => false
    if strStartsWith su "/" && fbTruthy then pure (fallbackBaseUrl.getD "" ++ su)
    else if ¬ strStartsWith su "http" && fbTruthy then pure (fallbackBaseUrl.getD "")
    else pure (stripTrailingSlash su)
  else
    let host := jget spec "host"
    if host.truthy then do
      let schemes := jget spec "schemes"
      let protocol : Json ←
        if schemes.nullish then pure (.str "https")
        else match schemes with
          | .arr l =>
              pure (if l.any (fun e => jeqStr e "https") then .str "https"
                    else jsOr (l.head?.getD .undefined) (.str "https"))
          | .str s =>
              pure (if strIncludes s "https" then .str "https"
                    else jsOr (jget schemes "0") (.str "https"))
          | _ => Except.error "TypeError"
      let basePath := jsOr (jget spec "basePath") (.str "")
      pure (stripTrailingSlash (jsToString protocol ++ "://" ++ jsToString host ++ jsToString basePath))
    else pure (fallbackBaseUrl.getD "")

/-- One converted operation together with its tag metadata
(`{request, metadata: {tags}}`). -/
structure ReqWithTags where
  request : HoppRESTRequest
  tags : Json
deriving DecidableEq

/-- The `RA.filterMap` over the seven verbs: evaluate `!!pathObj[method]`
for each (a TypeError when the path item is nullish) and keep the truthy
ones. -/
def presentMethods (pathObj : Json) : List String → Except String (List (String × Json))
  | [] => pure []
  | m :: rest => do
      let info ← jaccess pathObj m
      let tail ← presentMethods pathObj rest
      if info.truthy then pure ((m, info) :: tail) else pure tail

/-- The request construction of `convertPathToHoppReqs` for one verb. -/
def buildRequest (rp : RandomProvider) (doc : Json) (pathName : String)
    (m : String) (info : Json) : Except String ReqWithTags := do
  let urlJ ← parseOpenAPIUrl doc
  let openAPIUrl ← asStrE urlJ
  let openAPIPath := replaceOpenApiPathTemplating pathName
  let endpoint :=
    if strEndsWith openAPIUrl "/" && strStartsWith openAPIPath "/" then
      openAPIUrl ++ openAPIPath.drop 1
    else openAPIUrl ++ openAPIPath
  let name := jsNullish (jget info "operationId")
    (jsNullish (jget info "summary") (.str "Untitled Request"))
  let description := jsNullish (jget info "description") .null
  let params ← parseOpenAPIParams (paramsListOf info)
  let headers ← parseOpenAPIHeaders (paramsListOf info)
  let auth ← parseOpenAPIAuth doc info
  let body ← parseOpenAPIBody rp doc info
  let requestVariables ← parseOpenAPIVariables (paramsListOf info)
  -- the originalRequest snapshot re-runs the same parsers, as the source does
  let origAuth ← parseOpenAPIAuth doc info
  let origBody ← parseOpenAPIBody rp doc info
  let origParams ← parseOpenAPIParams (paramsListOf info)
  let origHeaders ← parseOpenAPIHeaders (paramsListOf info)
  let origVars ← parseOpenAPIVariables (paramsListOf info)
  let orig : HoppRESTResponseOriginalRequest :=
    { name := name, auth := origAuth, body := origBody, endpoint := endpoint,
      params := origParams, headers := origHeaders, method := strToUpper m,
      requestVariables := origVars }
  let responses ← parseOpenAPIResponses doc info orig
  let request : HoppRESTRequest :=
    { name := name, description := description, method := strToUpper m, endpoint := endpoint,
      params := params, headers := headers, auth := auth, body := body,
      preRequestScript := "", testScript := "pw.expect(response.status).toBe(200);",
      requestVariables := requestVariables, responses := responses }
  pure { request := request, tags := jsNullish (jget info "tags") (.arr []) }

def convertPathToHoppReqs (rp : RandomProvider) (doc : Json) (pathName : String)
    (pathObj : Json) : Except String (List ReqWithTags) := do
  let present ← presentMethods pathObj
    ["get", "head", "post", "put", "delete", "options", "patch"]
  present.mapM fun mi => buildRequest rp doc pathName mi.1 mi.2

/-- Modelled from the spec: `cloneDeep`, the external "deep-clone utility
(value → independent copy)".  On immutable model values the copy is the
same value; its heap independence (one fresh object per call) is modelled
explicitly for claim C8 below. -/
def cloneDeep (r : HoppRESTRequest) : HoppRESTRequest := r

/-- `requestsByTags[tag].push(req)` with on-demand key creation (JavaScript
record key order: first occurrence). -/
def pushByTag (byTags : List (String × List HoppRESTRequest)) (tag : String)
    (req : HoppRESTRequest) : List (String × List HoppRESTRequest) :=
  if byTags.any (fun p => p.1 = tag) then
    byTags.map fun p => if p.1 = tag then (p.1, p.2 ++ [req]) else p
  else byTags ++ [(tag, [req])]

/-- What `for (const tag of tags)` iterates: array elements, characters of
a string, TypeError otherwise. -/
def tagsIterationList : Json → Except String (List Json)
  | .arr l => pure l
  | .str s => pure (s.toList.map fun c => Json.str (String.mk [c]))
  | _ => Except.error "TypeError"

/-- The tag fan-out loop of `convertOpenApiDocsToHopp`: zero tags attach the
request to the root list; otherwise one `cloneDeep` copy is pushed per
tag. -/
def groupRequestsByTags (paths : List ReqWithTags) :
    Except String (List (String × List HoppRESTRequest) × List HoppRESTRequest) :=
  paths.foldlM (fun acc rw => do
    if jeqNum (jget rw.tags "length") 0 then pure (acc.1, acc.2 ++ [rw.request])
    else do
      let tagList ← tagsIterationList rw.tags
      pure (tagList.foldl (fun bt tag => pushByTag bt (jsToString tag) (cloneDeep rw.request)) acc.1,
        acc.2))
    ([], [])

/-- The `tagDescriptions` record: for each member of an array-valued
`doc.tags` with truthy `name` and `description`, record the description. -/
def buildTagDescriptions (doc : Json) : Except String (List (String × Json)) := do
  let tagsIn ← jsInOp "tags" doc
  if tagsIn then
    match jget doc "tags" with
    | .arr l =>
        l.foldlM (fun m t => do
          let nameV ← jaccess t "name"
          if nameV.truthy then do
            let descV ← jaccess t "description"
            if descV.truthy then pure (objInsertG m (jsToString nameV) descV)
            else pure m
          else pure m) []
    | _ => pure []
  else pure []

/-- The per-document body of `convertOpenApiDocsToHopp`. -/
def convertSingleDoc (rp : RandomProvider) (fallbackBaseUrl : Option String)
    (doc : Json) : Except String HoppCollection := do
  let infoV ← jaccess doc "info"
  let name ← jaccess infoV "title"
  let descV ← jaccess infoV "description"
  let description := jsNullish descV .null
  let baseUrl ← extractBaseUrl doc fallbackBaseUrl
  let tagDescriptions ← buildTagDescriptions doc
  let pathsEntries := jsEntries (jsNullish (jget doc "paths") (.obj []))
  let pathsReqs ← pathsEntries.mapM fun pe => convertPathToHoppReqs rp doc pe.1 pe.2
  let paths := pathsReqs.flatten
  let grouped ← groupRequestsByTags paths
  let folders := grouped.1.map fun nr =>
    HoppCollection.make (.str nr.1)
      (jsNullish (((tagDescriptions.find? (fun p => p.1 = nr.1)).map Prod.snd).getD .undefined) .null)
      (.inheritAuth true none) [] [] [] nr.2
  pure (HoppCollection.make name description (.inheritAuth true (some baseUrl)) [] []
    folders grouped.2)

/-- `convertOpenApiDocsToHopp`: eagerly convert every document (a thrown
TypeError aborts the whole map, surfacing as a crash, not a `Left`). -/
def convertOpenApiDocsToHopp (rp : RandomProvider) (docs : List Json)
    (fallbackBaseUrl : Option String) : Except String (List HoppCollection) :=
  docs.mapM (convertSingleDoc rp fallbackBaseUrl)

/-- The outcome of a whole importer call: a fp-ts `Left` tag, a JavaScript
exception escaping the pipeline, or the converted collections. -/
inductive ImportResult where
  | failed (tag : String)
  | crashed (msg : String)
  | ok (collections : List HoppCollection)

/-- `hoppOpenAPIImporter` over abstract JSON/YAML parser and
validation/dereference adapter capabilities: parse every file (any failure
fails the batch), then the validation and dereference loops (whose
`TE.tryCatch` error lambdas are unreachable — every per-document failure is
caught inside the loop), then conversion (called without a fallback base
URL). -/
def hoppOpenAPIImporter (pJ pY : String → Option Json)
    (validate deref : Json → Except String Json) (rp : RandomProvider)
    (fileContents : List String) : ImportResult :=
  match fileContents.mapM (parseOpenAPIDocContent pJ pY) with
  | none => .failed IMPORTER_INVALID_FILE_FORMAT
  | some docArr =>
      let vdocs := validationStage validate docArr
      let ddocs := dereferenceStage deref vdocs
      match convertOpenApiDocsToHopp rp ddocs none with
      | .ok cols => .ok cols
      | .error m => .crashed m


/-! ## Generic list lemmas -/

theorem length_filter_le_of_imp {α : Type} (l : List α) (p q : α → Bool)
    (h : ∀ x, q x = true → p x = true) :
    (l.filter q).length ≤ (l.filter p).length := by
  induction l with
  | nil => simp
  | cons a t ih =>
      by_cases hq : q a = true
      · have hp := h a hq
        simp [List.filter, hq, hp]
        omega
      · simp only [List.filter]
        rw [Bool.not_eq_true] at hq
        rw [hq]
        cases hp : p a <;> simp <;> omega

theorem length_filter_lt_of_imp {α : Type} (l : List α) (p q : α → Bool)
    (h : ∀ x, q x = true → p x = true) (a : α) (ha : a ∈ l)
    (hpa : p a = true) (hqa : q a = false) :
    (l.filter q).length < (l.filter p).length := by
  induction l with
  | nil => cases ha
  | cons b t ih =>
      rcases List.mem_cons.mp ha with hb | hb
      · subst hb
        simp only [List.filter, hpa, hqa]
        have := length_filter_le_of_imp t p q h
        simp
        omega
      · have := ih hb
        by_cases hq : q b = true
        · have hp := h b hq
          simp [List.filter, hq, hp]
          omega
        · simp only [List.filter]
          rw [Bool.not_eq_true] at hq
          rw [hq]
          cases hp : p b <;> simp <;> omega

theorem contains_false_iff {β : Type} [BEq β] [LawfulBEq β] (l : List β) (y : β) :
    l.contains y = false ↔ y ∉ l := by
  rw [show l.contains y = List.elem y l from rfl]
  constructor
  · intro h hm
    have hc := List.elem_iff.mpr hm
    rw [h] at hc
    cases hc
  · intro h
    cases hc : List.elem y l
    · rfl
    · exact absurd (List.elem_iff.mp hc) h

theorem mapM_except_nil {α β : Type} (f : α → Except String β) :
    ([] : List α).mapM f = .ok [] := rfl

theorem mapM_except_cons {α β : Type} (f : α → Except String β) (a : α) (t : List α) :
    (a :: t).mapM f = (f a).bind fun b => (t.mapM f).bind fun rest => .ok (b :: rest) := by
  rw [← List.mapM'_eq_mapM]
  simp only [List.mapM']
  rw [List.mapM'_eq_mapM]
  rfl

theorem mapM_option_nil {α β : Type} (f : α → Option β) :
    ([] : List α).mapM f = some [] := rfl

theorem mapM_option_cons {α β : Type} (f : α → Option β) (a : α) (t : List α) :
    (a :: t).mapM f = (f a).bind fun b => (t.mapM f).bind fun rest => some (b :: rest) := by
  rw [← List.mapM'_eq_mapM]
  simp only [List.mapM']
  rw [List.mapM'_eq_mapM]
  rfl

theorem mapM_except_mem {α β : Type} (f : α → Except String β) :
    ∀ (l : List α) (out : List β), l.mapM f = .ok out →
      ∀ r ∈ out, ∃ a ∈ l, f a = .ok r := by
  intro l
  induction l with
  | nil =>
      intro out h r hr
      rw [mapM_except_nil] at h
      cases h
      cases hr
  | cons a t ih =>
      intro out h r hr
      rw [mapM_except_cons] at h
      cases hfa : f a with
      | error e => rw [hfa] at h; cases h
      | ok b =>
          rw [hfa] at h
          cases hft : t.mapM f with
          | error e => rw [hft] at h; cases h
          | ok rest =>
              rw [hft] at h
              simp only [Except.bind] at h
              cases h
              rcases List.mem_cons.mp hr with hr | hr
              · exact ⟨a, List.mem_cons_self a t, by rw [hfa, hr]⟩
              · rcases ih rest hft r hr with ⟨x, hx, hfx⟩
                exact ⟨x, List.mem_cons_of_mem a hx, hfx⟩

theorem mapM_option_none_of_mem {α β : Type} (f : α → Option β) :
    ∀ (l : List α) (a : α), a ∈ l → f a = none → l.mapM f = none := by
  intro l
  induction l with
  | nil => intro a ha; cases ha
  | cons b t ih =>
      intro a ha hfa
      rw [mapM_option_cons]
      rcases List.mem_cons.mp ha with hb | hb
      · subst hb
        rw [hfa]
        rfl
      · cases hfb : f b with
        | none => rfl
        | some x =>
            rw [ih a hb hfa]
            rfl

/-! ## Termination of the mock generator (infrastructure for C1/C7) -/

/-- The number of graph ids not yet on the visited set — the measure the
cycle guard strictly decreases along every descent. -/
def unvisitedCount {α : Type} [DecidableEq α] (ids : List α) (visited : List (Option α)) : Nat :=
  (ids.filter (fun a => !(visited.contains (some a)))).length

theorem unvisitedCount_mono {α : Type} [DecidableEq α] (ids : List α)
    (v1 v2 : List (Option α)) (h : ∀ x, x ∈ v1 → x ∈ v2) :
    unvisitedCount ids v2 ≤ unvisitedCount ids v1 := by
  apply length_filter_le_of_imp
  intro x hx
  rw [Bool.not_eq_true'] at hx ⊢
  rw [contains_false_iff] at hx ⊢
  exact fun hm => hx (h _ hm)

theorem unvisitedCount_lt {α : Type} [DecidableEq α] (ids : List α)
    (visited : List (Option α)) (a : α) (ha : a ∈ ids)
    (hv : visited.contains (some a) = false) :
    unvisitedCount ids ((some a) :: visited) < unvisitedCount ids visited := by
  have himp : ∀ x, (!(((some a) :: visited).contains (some x))) = true →
      (!(visited.contains (some x))) = true := by
    intro x hx
    rw [Bool.not_eq_true'] at hx ⊢
    rw [contains_false_iff] at hx ⊢
    exact fun hm => hx (List.mem_cons_of_mem _ hm)
  have hpa : (!(visited.contains (some a))) = true := by rw [hv]; rfl
  have hqa : (!(((some a) :: visited).contains (some a))) = false := by
    have hc : (((some a) :: visited).contains (some a)) = true :=
      List.elem_iff.mpr (List.mem_cons_self _ _)
    rw [hc]
    rfl
  exact length_filter_lt_of_imp _ _ _ himp a ha hpa hqa



theorem beq_false_not {b : Bool} (h : b = false) : ¬ b = true := fun h2 => by
  rw [h] at h2
  cases h2

/-! Branch equations for `genMockCore` at positive fuel: one lemma per
dispatch outcome, each conditioned on the guards that route execution
there.  These let the later proofs unfold the generator one branch at a
time. -/

theorem genMockCore_eq_cycle {α : Type} [DecidableEq α]
    (rp : RandomProvider) (g : α → Option (SchemaNode α))
    (fuel : Nat) (ref : Option α) (visited : List (Option α)) (fieldName : Option String)
    (hc : visited.contains ref = true) :
    genMockCore rp g (fuel + 1) ref visited fieldName = some (.obj [], visited) := by
  rw [genMockCore.eq_2, if_pos hc]

theorem genMockCore_eq_nullref {α : Type} [DecidableEq α]
    (rp : RandomProvider) (g : α → Option (SchemaNode α))
    (fuel : Nat) (visited : List (Option α)) (fieldName : Option String)
    (hc : visited.contains none = true → False) :
    genMockCore rp g (fuel + 1) none visited fieldName = some (.null, none :: visited) := by
  rw [genMockCore.eq_2, if_neg hc]

theorem genMockCore_eq_dangling {α : Type} [DecidableEq α]
    (rp : RandomProvider) (g : α → Option (SchemaNode α))
    (fuel : Nat) (id : α) (visited : List (Option α)) (fieldName : Option String)
    (hc : visited.contains (some id) = false) (hg : g id = none) :
    genMockCore rp g (fuel + 1) (some id) visited fieldName =
      some (.null, some id :: visited) := by
  rw [genMockCore.eq_2, if_neg (beq_false_not hc)]
  dsimp only
  rw [hg]

theorem genMockCore_eq_falsy {α : Type} [DecidableEq α]
    (rp : RandomProvider) (g : α → Option (SchemaNode α))
    (fuel : Nat) (id : α) (visited : List (Option α)) (fieldName : Option String)
    (node : SchemaNode α)
    (hc : visited.contains (some id) = false) (hg : g id = some node)
    (hfal : node.falsy = true) :
    genMockCore rp g (fuel + 1) (some id) visited fieldName =
      some (.null, some id :: visited) := by
  rw [genMockCore.eq_2, if_neg (beq_false_not hc)]
  dsimp only
  rw [hg]
  dsimp only
  rw [if_pos hfal]

theorem genMockCore_eq_binary {α : Type} [DecidableEq α]
    (rp : RandomProvider) (g : α → Option (SchemaNode α))
    (fuel : Nat) (id : α) (visited : List (Option α)) (fieldName : Option String)
    (node : SchemaNode α)
    (hc : visited.contains (some id) = false) (hg : g id = some node)
    (hfal : node.falsy = false)
    (hbin : (jeqStr node.format "binary" || jeqStr node.type "file") = true) :
    genMockCore rp g (fuel + 1) (some id) visited fieldName =
      some (.str (binaryDataUri node.contentMediaType fieldName), some id :: visited) := by
  rw [genMockCore.eq_2, if_neg (beq_false_not hc)]
  dsimp only
  rw [hg]
  dsimp only
  rw [if_neg (beq_false_not hfal), if_pos hbin]

theorem genMockCore_eq_string {α : Type} [DecidableEq α]
    (rp : RandomProvider) (g : α → Option (SchemaNode α))
    (fuel : Nat) (id : α) (visited : List (Option α)) (fieldName : Option String)
    (node : SchemaNode α)
    (hc : visited.contains (some id) = false) (hg : g id = some node)
    (hfal : node.falsy = false)
    (hbin : (jeqStr node.format "binary" || jeqStr node.type "file") = false)
    (hstr : jeqStr node.type "string" = true) :
    ∃ v, genMockCore rp g (fuel + 1) (some id) visited fieldName =
      some (v, some id :: visited) := by
  rw [genMockCore.eq_2, if_neg (beq_false_not hc)]
  dsimp only
  rw [hg]
  dsimp only
  rw [if_neg (beq_false_not hfal), if_neg (beq_false_not hbin), if_pos hstr]
  exact ⟨_, rfl⟩

theorem genMockCore_eq_number {α : Type} [DecidableEq α]
    (rp : RandomProvider) (g : α → Option (SchemaNode α))
    (fuel : Nat) (id : α) (visited : List (Option α)) (fieldName : Option String)
    (node : SchemaNode α)
    (hc : visited.contains (some id) = false) (hg : g id = some node)
    (hfal : node.falsy = false)
    (hbin : (jeqStr node.format "binary" || jeqStr node.type "file") = false)
    (hstr : jeqStr node.type "string" = false)
    (hnum : (jeqStr node.type "integer" || jeqStr node.type "number") = true) :
    ∃ v, genMockCore rp g (fuel + 1) (some id) visited fieldName =
      some (v, some id :: visited) := by
  rw [genMockCore.eq_2, if_neg (beq_false_not hc)]
  dsimp only
  rw [hg]
  dsimp only
  rw [if_neg (beq_false_not hfal), if_neg (beq_false_not hbin), if_neg (beq_false_not hstr),
    if_pos hnum]
  by_cases hint : jeqStr node.type "integer" = true
  · rw [if_pos hint]
    exact ⟨_, rfl⟩
  · rw [if_neg hint]
    exact ⟨_, rfl⟩

theorem genMockCore_eq_boolean {α : Type} [DecidableEq α]
    (rp : RandomProvider) (g : α → Option (SchemaNode α))
    (fuel : Nat) (id : α) (visited : List (Option α)) (fieldName : Option String)
    (node : SchemaNode α)
    (hc : visited.contains (some id) = false) (hg : g id = some node)
    (hfal : node.falsy = false)
    (hbin : (jeqStr node.format "binary" || jeqStr node.type "file") = false)
    (hstr : jeqStr node.type "string" = false)
    (hnum : (jeqStr node.type "integer" || jeqStr node.type "number") = false)
    (hbool : jeqStr node.type "boolean" = true) :
    genMockCore rp g (fuel + 1) (some id) visited fieldName =
      some (.bool rp.bool, some id :: visited) := by
  rw [genMockCore.eq_2, if_neg (beq_false_not hc)]
  dsimp only
  rw [hg]
  dsimp only
  rw [if_neg (beq_false_not hfal), if_neg (beq_false_not hbin), if_neg (beq_false_not hstr),
    if_neg (beq_false_not hnum), if_pos hbool]

theorem genMockCore_eq_array {α : Type} [DecidableEq α]
    (rp : RandomProvider) (g : α → Option (SchemaNode α))
    (fuel : Nat) (id : α) (visited : List (Option α)) (fieldName : Option String)
    (node : SchemaNode α)
    (hc : visited.contains (some id) = false) (hg : g id = some node)
    (hfal : node.falsy = false)
    (hbin : (jeqStr node.format "binary" || jeqStr node.type "file") = false)
    (hstr : jeqStr node.type "string" = false)
    (hnum : (jeqStr node.type "integer" || jeqStr node.type "number") = false)
    (hbool : jeqStr node.type "boolean" = false)
    (harr : (jeqStr node.type "array" && node.items.isSome) = true) :
    genMockCore rp g (fuel + 1) (some id) visited fieldName =
      match genMockItems rp g fuel node.items (some id :: visited) fieldName
          (jsLoopCount (jsNullish node.minItems (.num 1))) with
      | some items => some (.arr items, some id :: visited)
      | none => none := by
  rw [genMockCore.eq_2, if_neg (beq_false_not hc)]
  dsimp only
  rw [hg]
  dsimp only
  rw [if_neg (beq_false_not hfal), if_neg (beq_false_not hbin), if_neg (beq_false_not hstr),
    if_neg (beq_false_not hnum), if_neg (beq_false_not hbool), if_pos harr]
  rfl

theorem genMockCore_eq_object {α : Type} [DecidableEq α]
    (rp : RandomProvider) (g : α → Option (SchemaNode α))
    (fuel : Nat) (id : α) (visited : List (Option α)) (fieldName : Option String)
    (node : SchemaNode α)
    (hc : visited.contains (some id) = false) (hg : g id = some node)
    (hfal : node.falsy = false)
    (hbin : (jeqStr node.format "binary" || jeqStr node.type "file") = false)
    (hstr : jeqStr node.type "string" = false)
    (hnum : (jeqStr node.type "integer" || jeqStr node.type "number") = false)
    (hbool : jeqStr node.type "boolean" = false)
    (harr : (jeqStr node.type "array" && node.items.isSome) = false)
    (hobj : (jeqStr node.type "object" || node.properties.isSome) = true) :
    genMockCore rp g (fuel + 1) (some id) visited fieldName =
      match genMockProps rp g fuel (node.properties.getD []) (some id :: visited) [] with
      | some (fields, vis) => some (.obj fields, vis)
      | none => none := by
  rw [genMockCore.eq_2, if_neg (beq_false_not hc)]
  dsimp only
  rw [hg]
  dsimp only
  rw [if_neg (beq_false_not hfal), if_neg (beq_false_not hbin), if_neg (beq_false_not hstr),
    if_neg (beq_false_not hnum), if_neg (beq_false_not hbool), if_neg (beq_false_not harr),
    if_pos hobj]
  rfl

theorem genMockCore_eq_allOf {α : Type} [DecidableEq α]
    (rp : RandomProvider) (g : α → Option (SchemaNode α))
    (fuel : Nat) (id : α) (visited : List (Option α)) (fieldName : Option String)
    (node : SchemaNode α)
    (hc : visited.contains (some id) = false) (hg : g id = some node)
    (hfal : node.falsy = false)
    (hbin : (jeqStr node.format "binary" || jeqStr node.type "file") = false)
    (hstr : jeqStr node.type "string" = false)
    (hnum : (jeqStr node.type "integer" || jeqStr node.type "number") = false)
    (hbool : jeqStr node.type "boolean" = false)
    (harr : (jeqStr node.type "array" && node.items.isSome) = false)
    (hobj : (jeqStr node.type "object" || node.properties.isSome) = false)
    (hall : node.allOf.isSome = true) :
    genMockCore rp g (fuel + 1) (some id) visited fieldName =
      match genMockAll rp g fuel (node.allOf.getD []) (some id :: visited) fieldName [] with
      | some (merged, vis) => some (.obj merged, vis)
      | none => none := by
  rw [genMockCore.eq_2, if_neg (beq_false_not hc)]
  dsimp only
  rw [hg]
  dsimp only
  rw [if_neg (beq_false_not hfal), if_neg (beq_false_not hbin), if_neg (beq_false_not hstr),
    if_neg (beq_false_not hnum), if_neg (beq_false_not hbool), if_neg (beq_false_not harr),
    if_neg (beq_false_not hobj), if_pos hall]
  rfl

theorem genMockCore_eq_oneOf {α : Type} [DecidableEq α]
    (rp : RandomProvider) (g : α → Option (SchemaNode α))
    (fuel : Nat) (id : α) (visited : List (Option α)) (fieldName : Option String)
    (node : SchemaNode α)
    (hc : visited.contains (some id) = false) (hg : g id = some node)
    (hfal : node.falsy = false)
    (hbin : (jeqStr node.format "binary" || jeqStr node.type "file") = false)
    (hstr : jeqStr node.type "string" = false)
    (hnum : (jeqStr node.type "integer" || jeqStr node.type "number") = false)
    (hbool : jeqStr node.type "boolean" = false)
    (harr : (jeqStr node.type "array" && node.items.isSome) = false)
    (hobj : (jeqStr node.type "object" || node.properties.isSome) = false)
    (hall : node.allOf.isSome = false)
    (hone : (node.oneOf.isSome || node.anyOf.isSome) = true) :
    genMockCore rp g (fuel + 1) (some id) visited fieldName =
      genMockCore rp g fuel
        ((((if node.oneOf.isSome = true then node.oneOf.getD [] else node.anyOf.getD []).head?).map
            some).getD none)
        (some id :: visited) fieldName := by
  rw [genMockCore.eq_2, if_neg (beq_false_not hc)]
  dsimp only
  rw [hg]
  dsimp only
  rw [if_neg (beq_false_not hfal), if_neg (beq_false_not hbin), if_neg (beq_false_not hstr),
    if_neg (beq_false_not hnum), if_neg (beq_false_not hbool), if_neg (beq_false_not harr),
    if_neg (beq_false_not hobj), if_neg (beq_false_not hall), if_pos hone]

theorem genMockCore_eq_default {α : Type} [DecidableEq α]
    (rp : RandomProvider) (g : α → Option (SchemaNode α))
    (fuel : Nat) (id : α) (visited : List (Option α)) (fieldName : Option String)
    (node : SchemaNode α)
    (hc : visited.contains (some id) = false) (hg : g id = some node)
    (hfal : node.falsy = false)
    (hbin : (jeqStr node.format "binary" || jeqStr node.type "file") = false)
    (hstr : jeqStr node.type "string" = false)
    (hnum : (jeqStr node.type "integer" || jeqStr node.type "number") = false)
    (hbool : jeqStr node.type "boolean" = false)
    (harr : (jeqStr node.type "array" && node.items.isSome) = false)
    (hobj : (jeqStr node.type "object" || node.properties.isSome) = false)
    (hall : node.allOf.isSome = false)
    (hone : (node.oneOf.isSome || node.anyOf.isSome) = false) :
    genMockCore rp g (fuel + 1) (some id) visited fieldName =
      some (.null, some id :: visited) := by
  rw [genMockCore.eq_2, if_neg (beq_false_not hc)]
  dsimp only
  rw [hg]
  dsimp only
  rw [if_neg (beq_false_not hfal), if_neg (beq_false_not hbin), if_neg (beq_false_not hstr),
    if_neg (beq_false_not hnum), if_neg (beq_false_not hbool), if_neg (beq_false_not harr),
    if_neg (beq_false_not hobj), if_neg (beq_false_not hall), if_neg (beq_false_not hone)]


/-- The generator only ever adds to the visited set it was handed (the
JavaScript `Set` is mutated by `add` alone): every set a call returns
contains each element of the set it received. -/
theorem genMock_visited_sub {α : Type} [DecidableEq α]
    (rp : RandomProvider) (g : α → Option (SchemaNode α)) :
    ∀ fuel ref visited fieldName v s,
      genMockCore rp g fuel ref visited fieldName = some (v, s) →
      ∀ x, x ∈ visited → x ∈ s := by
  intro fuel
  induction fuel with
  | zero =>
      intro ref visited fieldName v s h
      rw [genMockCore.eq_1] at h
      cases h
  | succ fuel ih =>
      have hprops : ∀ props visited acc r s,
          genMockProps rp g fuel props visited acc = some (r, s) →
          ∀ x, x ∈ visited → x ∈ s := by
        intro props
        induction props with
        | nil =>
            intro visited acc r s h x hx
            rw [genMockProps_nil] at h
            cases h
            exact hx
        | cons p rest ihp =>
            obtain ⟨k, pid⟩ := p
            intro visited acc r s h x hx
            rw [genMockProps_cons] at h
            cases hcore : genMockCore rp g fuel (some pid) visited (some k) with
            | none => rw [hcore] at h; cases h
            | some pr =>
                obtain ⟨pv, ps⟩ := pr
                rw [hcore] at h
                exact ihp _ _ _ _ h x (ih _ _ _ _ _ hcore x hx)
      have hall : ∀ subs visited fieldName acc r s,
          genMockAll rp g fuel subs visited fieldName acc = some (r, s) →
          ∀ x, x ∈ visited → x ∈ s := by
        intro subs
        induction subs with
        | nil =>
            intro visited fieldName acc r s h x hx
            rw [genMockAll_nil] at h
            cases h
            exact hx
        | cons sid rest iha =>
            intro visited fieldName acc r s h x hx
            rw [genMockAll_cons] at h
            cases hcore : genMockCore rp g fuel (some sid) visited fieldName with
            | none => rw [hcore] at h; cases h
            | some pr =>
                obtain ⟨pv, ps⟩ := pr
                rw [hcore] at h
                exact iha _ _ _ _ _ h x (ih _ _ _ _ _ hcore x hx)
      intro ref visited fieldName v s h x hx
      have hx' : x ∈ ref :: visited := List.mem_cons_of_mem _ hx
      cases hcont : visited.contains ref with
      | true =>
          rw [genMockCore_eq_cycle rp g fuel ref visited fieldName hcont] at h
          cases h
          exact hx
      | false =>
          cases ref with
          | none =>
              rw [genMockCore_eq_nullref rp g fuel visited fieldName (beq_false_not hcont)] at h
              cases h
              exact hx'
          | some id =>
              cases hg : g id with
              | none =>
                  rw [genMockCore_eq_dangling rp g fuel id visited fieldName hcont hg] at h
                  cases h
                  exact hx'
              | some node =>
                  cases hfal : node.falsy with
                  | true =>
                      rw [genMockCore_eq_falsy rp g fuel id visited fieldName node
                        hcont hg hfal] at h
                      cases h
                      exact hx'
                  | false =>
                  cases hbin : (jeqStr node.format "binary" || jeqStr node.type "file") with
                  | true =>
                      rw [genMockCore_eq_binary rp g fuel id visited fieldName node
                        hcont hg hfal hbin] at h
                      cases h
                      exact hx'
                  | false =>
                  cases hstr : jeqStr node.type "string" with
                  | true =>
                      obtain ⟨v', hv'⟩ := genMockCore_eq_string rp g fuel id visited fieldName
                        node hcont hg hfal hbin hstr
                      rw [hv'] at h
                      cases h
                      exact hx'
                  | false =>
                  cases hnum : (jeqStr node.type "integer" || jeqStr node.type "number") with
                  | true =>
                      obtain ⟨v', hv'⟩ := genMockCore_eq_number rp g fuel id visited fieldName
                        node hcont hg hfal hbin hstr hnum
                      rw [hv'] at h
                      cases h
                      exact hx'
                  | false =>
                  cases hbool : jeqStr node.type "boolean" with
                  | true =>
                      rw [genMockCore_eq_boolean rp g fuel id visited fieldName node
                        hcont hg hfal hbin hstr hnum hbool] at h
                      cases h
                      exact hx'
                  | false =>
                  cases harr : (jeqStr node.type "array" && node.items.isSome) with
                  | true =>
                      rw [genMockCore_eq_array rp g fuel id visited fieldName node
                        hcont hg hfal hbin hstr hnum hbool harr] at h
                      cases hi : genMockItems rp g fuel node.items (some id :: visited)
                          fieldName (jsLoopCount (jsNullish node.minItems (.num 1))) with
                      | none => rw [hi] at h; cases h
                      | some items =>
                          rw [hi] at h
                          cases h
                          exact hx'
                  | false =>
                  cases hobj : (jeqStr node.type "object" || node.properties.isSome) with
                  | true =>
                      rw [genMockCore_eq_object rp g fuel id visited fieldName node
                        hcont hg hfal hbin hstr hnum hbool harr hobj] at h
                      cases hp : genMockProps rp g fuel (node.properties.getD [])
                          (some id :: visited) [] with
                      | none => rw [hp] at h; cases h
                      | some pr =>
                          obtain ⟨fields, vis⟩ := pr
                          rw [hp] at h
                          cases h
                          exact hprops _ _ _ _ _ hp x hx'
                  | false =>
                  cases hallo : node.allOf.isSome with
                  | true =>
                      rw [genMockCore_eq_allOf rp g fuel id visited fieldName node
                        hcont hg hfal hbin hstr hnum hbool harr hobj hallo] at h
                      cases hp : genMockAll rp g fuel (node.allOf.getD [])
                          (some id :: visited) fieldName [] with
                      | none => rw [hp] at h; cases h
                      | some pr =>
                          obtain ⟨merged, vis⟩ := pr
                          rw [hp] at h
                          cases h
                          exact hall _ _ _ _ _ _ hp x hx'
                  | false =>
                  cases hone : (node.oneOf.isSome || node.anyOf.isSome) with
                  | true =>
                      rw [genMockCore_eq_oneOf rp g fuel id visited fieldName node
                        hcont hg hfal hbin hstr hnum hbool harr hobj hallo hone] at h
                      exact ih _ _ _ _ _ h x hx'
                  | false =>
                      rw [genMockCore_eq_default rp g fuel id visited fieldName node
                        hcont hg hfal hbin hstr hnum hbool harr hobj hallo hone] at h
                      cases h
                      exact hx'

/-- Sufficient fuel: whenever the fuel exceeds the number of graph ids not
yet visited (for any finite support `ids` of the graph), the generator
returns a value — the algorithmic content of the cycle guard: every descent
step moves one more id into the visited set. -/
theorem genMock_isSome {α : Type} [DecidableEq α]
    (rp : RandomProvider) (g : α → Option (SchemaNode α)) (ids : List α)
    (hids : ∀ a, (g a).isSome = true → a ∈ ids) :
    ∀ fuel ref visited fieldName, unvisitedCount ids visited < fuel →
      (genMockCore rp g fuel ref visited fieldName).isSome = true := by
  intro fuel
  induction fuel with
  | zero =>
      intro ref visited fieldName hb
      exact absurd hb (Nat.not_lt_zero _)
  | succ fuel ih =>
      have hitems : ∀ n ref visited fieldName, unvisitedCount ids visited < fuel →
          (genMockItems rp g fuel ref visited fieldName n).isSome = true := by
        intro n
        induction n with
        | zero =>
            intro ref visited fieldName _
            rw [genMockItems_zero]
            rfl
        | succ n ihn =>
            intro ref visited fieldName hb
            rw [genMockItems_succ]
            cases hcore : genMockCore rp g fuel ref visited fieldName with
            | none =>
                have := ih ref visited fieldName hb
                rw [hcore] at this
                cases this
            | some pr =>
                obtain ⟨pv, ps⟩ := pr
                cases hrec : genMockItems rp g fuel ref visited fieldName n with
                | none =>
                    have := ihn ref visited fieldName hb
                    rw [hrec] at this
                    cases this
                | some rest => rfl
      have hprops : ∀ props visited acc, unvisitedCount ids visited < fuel →
          (genMockProps rp g fuel props visited acc).isSome = true := by
        intro props
        induction props with
        | nil =>
            intro visited acc _
            rw [genMockProps_nil]
            rfl
        | cons p rest ihp =>
            obtain ⟨k, pid⟩ := p
            intro visited acc hb
            rw [genMockProps_cons]
            cases hcore : genMockCore rp g fuel (some pid) visited (some k) with
            | none =>
                have := ih (some pid) visited (some k) hb
                rw [hcore] at this
                cases this
            | some pr =>
                obtain ⟨pv, ps⟩ := pr
                have hsub := genMock_visited_sub rp g fuel (some pid) visited (some k) pv ps hcore
                have hb' : unvisitedCount ids ps < fuel :=
                  Nat.lt_of_le_of_lt (unvisitedCount_mono ids visited ps hsub) hb
                exact ihp ps (objInsertG acc k pv) hb'
      have hallm : ∀ subs visited fieldName acc, unvisitedCount ids visited < fuel →
          (genMockAll rp g fuel subs visited fieldName acc).isSome = true := by
        intro subs
        induction subs with
        | nil =>
            intro visited fieldName acc _
            rw [genMockAll_nil]
            rfl
        | cons sid rest iha =>
            intro visited fieldName acc hb
            rw [genMockAll_cons]
            cases hcore : genMockCore rp g fuel (some sid) visited fieldName with
            | none =>
                have := ih (some sid) visited fieldName hb
                rw [hcore] at this
                cases this
            | some pr =>
                obtain ⟨pv, ps⟩ := pr
                have hsub := genMock_visited_sub rp g fuel (some sid) visited fieldName pv ps hcore
                have hb' : unvisitedCount ids ps < fuel :=
                  Nat.lt_of_le_of_lt (unvisitedCount_mono ids visited ps hsub) hb
                exact iha ps fieldName (jsAssign acc pv) hb'
      intro ref visited fieldName hb
      cases hcont : visited.contains ref with
      | true =>
          rw [genMockCore_eq_cycle rp g fuel ref visited fieldName hcont]
          rfl
      | false =>
          cases ref with
          | none =>
              rw [genMockCore_eq_nullref rp g fuel visited fieldName (beq_false_not hcont)]
              rfl
          | some id =>
              cases hg : g id with
              | none =>
                  rw [genMockCore_eq_dangling rp g fuel id visited fieldName hcont hg]
                  rfl
              | some node =>
                  have hmem : id ∈ ids := hids id (by rw [hg]; rfl)
                  have hb' : unvisitedCount ids (some id :: visited) < fuel :=
                    Nat.lt_of_lt_of_le (unvisitedCount_lt ids visited id hmem hcont)
                      (Nat.lt_succ_iff.mp hb)
                  cases hfal : node.falsy with
                  | true =>
                      rw [genMockCore_eq_falsy rp g fuel id visited fieldName node hcont hg hfal]
                      rfl
                  | false =>
                  cases hbin : (jeqStr node.format "binary" || jeqStr node.type "file") with
                  | true =>
                      rw [genMockCore_eq_binary rp g fuel id visited fieldName node
                        hcont hg hfal hbin]
                      rfl
                  | false =>
                  cases hstr : jeqStr node.type "string" with
                  | true =>
                      obtain ⟨v', hv'⟩ := genMockCore_eq_string rp g fuel id visited fieldName
                        node hcont hg hfal hbin hstr
                      rw [hv']
                      rfl
                  | false =>
                  cases hnum : (jeqStr node.type "integer" || jeqStr node.type "number") with
                  | true =>
                      obtain ⟨v', hv'⟩ := genMockCore_eq_number rp g fuel id visited fieldName
                        node hcont hg hfal hbin hstr hnum
                      rw [hv']
                      rfl
                  | false =>
                  cases hbool : jeqStr node.type "boolean" with
                  | true =>
                      rw [genMockCore_eq_boolean rp g fuel id visited fieldName node
                        hcont hg hfal hbin hstr hnum hbool]
                      rfl
                  | false =>
                  cases harr : (jeqStr node.type "array" && node.items.isSome) with
                  | true =>
                      rw [genMockCore_eq_array rp g fuel id visited fieldName node
                        hcont hg hfal hbin hstr hnum hbool harr]
                      cases hi : genMockItems rp g fuel node.items (some id :: visited)
                          fieldName (jsLoopCount (jsNullish node.minItems (.num 1))) with
                      | none =>
                          have := hitems (jsLoopCount (jsNullish node.minItems (.num 1)))
                            node.items (some id :: visited) fieldName hb'
                          rw [hi] at this
                          cases this
                      | some items => rfl
                  | false =>
                  cases hobj : (jeqStr node.type "object" || node.properties.isSome) with
                  | true =>
                      rw [genMockCore_eq_object rp g fuel id visited fieldName node
                        hcont hg hfal hbin hstr hnum hbool harr hobj]
                      cases hp : genMockProps rp g fuel (node.properties.getD [])
                          (some id :: visited) [] with
                      | none =>
                          have := hprops (node.properties.getD []) (some id :: visited) [] hb'
                          rw [hp] at this
                          cases this
                      | some pr =>
                          obtain ⟨fields, vis⟩ := pr
                          rfl
                  | false =>
                  cases hallo : node.allOf.isSome with
                  | true =>
                      rw [genMockCore_eq_allOf rp g fuel id visited fieldName node
                        hcont hg hfal hbin hstr hnum hbool harr hobj hallo]
                      cases hp : genMockAll rp g fuel (node.allOf.getD [])
                          (some id :: visited) fieldName [] with
                      | none =>
                          have := hallm (node.allOf.getD []) (some id :: visited) fieldName [] hb'
                          rw [hp] at this
                          cases this
                      | some pr =>
                          obtain ⟨merged, vis⟩ := pr
                          rfl
                  | false =>
                  cases hone : (node.oneOf.isSome || node.anyOf.isSome) with
                  | true =>
                      rw [genMockCore_eq_oneOf rp g fuel id visited fieldName node
                        hcont hg hfal hbin hstr hnum hbool harr hobj hallo hone]
                      exact ih _ _ _ hb'
                  | false =>
                      rw [genMockCore_eq_default rp g fuel id visited fieldName node
                        hcont hg hfal hbin hstr hnum hbool harr hobj hallo hone]
                      rfl

/-- Every successful run of the item loop produces exactly the requested
number of elements. -/
theorem genMockItems_length {α : Type} [DecidableEq α]
    (rp : RandomProvider) (g : α → Option (SchemaNode α)) :
    ∀ n fuel ref visited fieldName l,
      genMockItems rp g fuel ref visited fieldName n = some l → l.length = n := by
  intro n
  induction n with
  | zero =>
      intro fuel ref visited fieldName l h
      rw [genMockItems_zero] at h
      cases h
      rfl
  | succ n ihn =>
      intro fuel ref visited fieldName l h
      rw [genMockItems_succ] at h
      cases hcore : genMockCore rp g fuel ref visited fieldName with
      | none => rw [hcore] at h; cases h
      | some pr =>
          obtain ⟨pv, ps⟩ := pr
          rw [hcore] at h
          cases hrec : genMockItems rp g fuel ref visited fieldName n with
          | none => rw [hrec] at h; cases h
          | some rest =>
              rw [hrec] at h
              cases h
              simp [ihn _ _ _ _ _ hrec]

/-- Item-loop termination, exported for C7: with the same fuel bound every
`genMockItems` run returns a list. -/
theorem genMockItems_isSome {α : Type} [DecidableEq α]
    (rp : RandomProvider) (g : α → Option (SchemaNode α)) (ids : List α)
    (hids : ∀ a, (g a).isSome = true → a ∈ ids) :
    ∀ n fuel ref visited fieldName, unvisitedCount ids visited < fuel →
      (genMockItems rp g fuel ref visited fieldName n).isSome = true := by
  intro n
  induction n with
  | zero =>
      intro fuel ref visited fieldName _
      rw [genMockItems_zero]
      rfl
  | succ n ihn =>
      intro fuel ref visited fieldName hb
      rw [genMockItems_succ]
      cases hcore : genMockCore rp g fuel ref visited fieldName with
      | none =>
          have := genMock_isSome rp g ids hids fuel ref visited fieldName hb
          rw [hcore] at this
          cases this
      | some pr =>
          obtain ⟨pv, ps⟩ := pr
          cases hrec : genMockItems rp g fuel ref visited fieldName n with
          | none =>
              have := ihn fuel ref visited fieldName hb
              rw [hrec] at this
              cases this
          | some rest => rfl

/-- **C1.** For every finite-or-cyclic schema-node graph,
`generateMockFromSchema` terminates and returns a value: (i) with fuel above
the count of graph ids not yet on the visited set, the call returns `some`
— the cycle guard moves one more id into the set before each descent, so no
descent outlives the graph; (ii) a schema node already seen on the descent
path (tracked by the visited set) returns an empty object immediately with
the set untouched; (iii)/(iv) recursive calls for array items each receive
the same fresh copy of the visited set (their mutations are discarded),
while (v)/(vi) sibling object properties share one mutable visited set,
each property continuing from the set the previous one returned — so
synthesis never recurses forever on a schema referencing an ancestor
through items, properties, or composition members. -/
theorem C1_mock_generator_cycle_guard_terminates {α : Type} [DecidableEq α]
    (rp : RandomProvider) (g : α → Option (SchemaNode α)) (ids : List α)
    (hids : ∀ a, (g a).isSome = true → a ∈ ids) :
    (∀ fuel ref visited fieldName, unvisitedCount ids visited < fuel →
       (genMockCore rp g fuel ref visited fieldName).isSome = true) ∧
    (∀ fuel ref visited fieldName, visited.contains ref = true →
       genMockCore rp g (fuel + 1) ref visited fieldName = some (.obj [], visited)) ∧
    (∀ fuel id visited fieldName node,
       visited.contains (some id) = false → g id = some node →
       node.falsy = false →
       (jeqStr node.format "binary" || jeqStr node.type "file") = false →
       jeqStr node.type "string" = false →
       (jeqStr node.type "integer" || jeqStr node.type "number") = false →
       jeqStr node.type "boolean" = false →
       (jeqStr node.type "array" && node.items.isSome) = true →
       genMockCore rp g (fuel + 1) (some id) visited fieldName =
         match genMockItems rp g fuel node.items (some id :: visited) fieldName
             (jsLoopCount (jsNullish node.minItems (.num 1))) with
         | some items => some (.arr items, some id :: visited)
         | none => none) ∧
    (∀ fuel ref visited fieldName n,
       genMockItems rp g fuel ref visited fieldName (n + 1) =
         match genMockCore rp g fuel ref visited fieldName with
         | some (v, _) =>
             match genMockItems rp g fuel ref visited fieldName n with
             | some rest => some (v :: rest)
             | none => none
         | none => none) ∧
    (∀ fuel id visited fieldName node,
       visited.contains (some id) = false → g id = some node →
       node.falsy = false →
       (jeqStr node.format "binary" || jeqStr node.type "file") = false →
       jeqStr node.type "string" = false →
       (jeqStr node.type "integer" || jeqStr node.type "number") = false →
       jeqStr node.type "boolean" = false →
       (jeqStr node.type "array" && node.items.isSome) = false →
       (jeqStr node.type "object" || node.properties.isSome) = true →
       genMockCore rp g (fuel + 1) (some id) visited fieldName =
         match genMockProps rp g fuel (node.properties.getD []) (some id :: visited) [] with
         | some (fields, vis) => some (.obj fields, vis)
         | none => none) ∧
    (∀ fuel k pid rest visited acc,
       genMockProps rp g fuel ((k, pid) :: rest) visited acc =
         match genMockCore rp g fuel (some pid) visited (some k) with
         | some (v, visited') => genMockProps rp g fuel rest visited' (objInsertG acc k v)
         | none => none) := by
  refine ⟨genMock_isSome rp g ids hids,
    fun fuel ref visited fieldName hc => genMockCore_eq_cycle rp g fuel ref visited fieldName hc,
    fun fuel id visited fieldName node hc hg hfal hbin hstr hnum hbool harr =>
      genMockCore_eq_array rp g fuel id visited fieldName node hc hg hfal hbin hstr hnum hbool harr,
    fun fuel ref visited fieldName n => by rw [genMockItems_succ],
    fun fuel id visited fieldName node hc hg hfal hbin hstr hnum hbool harr hobj =>
      genMockCore_eq_object rp g fuel id visited fieldName node
        hc hg hfal hbin hstr hnum hbool harr hobj,
    fun fuel k pid rest visited acc => by rw [genMockProps_cons]⟩

/-- A one-node cyclic graph: an object schema whose only property is the
schema itself (`properties.self` referencing its ancestor). -/
def cyclicSelfGraph : Nat → Option (SchemaNode Nat) := fun i =>
  if i = 0 then some { type := .str "object", properties := some [("self", 0)] } else none

theorem C1_mock_generator_cycle_guard_terminates_witness :
    (genMockCore rpFixed cyclicSelfGraph 2 (some 0) [] none).isSome = true ∧
    genMockCore rpFixed cyclicSelfGraph (4 + 1) (some 0) [some 0] none =
      some (.obj [], [some 0]) := by
  have h := C1_mock_generator_cycle_guard_terminates rpFixed cyclicSelfGraph [0] (by
    intro a ha
    by_cases h0 : a = 0
    · simp [h0]
    · simp [cyclicSelfGraph, h0] at ha)
  exact ⟨h.1 2 (some 0) [] none (by decide), h.2.1 4 (some 0) [some 0] none (by decide)⟩

/-- **C7.** A schema node of type "array" with items present — reached by
the dispatch (not cycle-guarded, not detected as binary/file, truthy as all
schema objects are) — synthesizes exactly `minItems ?? 1` elements: exactly
`k` when `minItems = k` is declared and exactly `1` (not a random count)
when `minItems` is absent. -/
theorem C7_array_minItems_count {α : Type} [DecidableEq α]
    (rp : RandomProvider) (g : α → Option (SchemaNode α)) (ids : List α)
    (hids : ∀ a, (g a).isSome = true → a ∈ ids)
    (fuel : Nat) (id : α) (visited : List (Option α)) (fieldName : Option String)
    (node : SchemaNode α)
    (hc : visited.contains (some id) = false)
    (hg : g id = some node)
    (hfal : node.falsy = false)
    (hbin : jeqStr node.format "binary" = false)
    (htype : node.type = .str "array")
    (hitems : node.items.isSome = true)
    (hfuel : unvisitedCount ids visited < fuel + 1) :
    ∃ items, genMockCore rp g (fuel + 1) (some id) visited fieldName =
        some (.arr items, some id :: visited) ∧
      items.length = jsLoopCount (jsNullish node.minItems (.num 1)) ∧
      (∀ k : Nat, node.minItems = .num (Int.ofNat k) → items.length = k) ∧
      (node.minItems = .undefined → items.length = 1) := by
  have hbin2 : (jeqStr node.format "binary" || jeqStr node.type "file") = false := by
    rw [hbin, htype]
    rfl
  have hstr : jeqStr node.type "string" = false := by rw [htype]; rfl
  have hnum : (jeqStr node.type "integer" || jeqStr node.type "number") = false := by
    rw [htype]; rfl
  have hbool : jeqStr node.type "boolean" = false := by rw [htype]; rfl
  have harr : (jeqStr node.type "array" && node.items.isSome) = true := by
    rw [htype, hitems]; rfl
  have hmem : id ∈ ids := hids id (by rw [hg]; rfl)
  have hb' : unvisitedCount ids (some id :: visited) < fuel :=
    Nat.lt_of_lt_of_le (unvisitedCount_lt ids visited id hmem hc) (Nat.lt_succ_iff.mp hfuel)
  have heq := genMockCore_eq_array rp g fuel id visited fieldName node
    hc hg hfal hbin2 hstr hnum hbool harr
  cases hi : genMockItems rp g fuel node.items (some id :: visited) fieldName
      (jsLoopCount (jsNullish node.minItems (.num 1))) with
  | none =>
      have := genMockItems_isSome rp g ids hids
        (jsLoopCount (jsNullish node.minItems (.num 1))) fuel node.items
        (some id :: visited) fieldName hb'
      rw [hi] at this
      cases this
  | some items =>
      rw [hi] at heq
      refine ⟨items, heq, genMockItems_length rp g _ _ _ _ _ _ hi, ?_, ?_⟩
      · intro k hk
        rw [genMockItems_length rp g _ _ _ _ _ _ hi, hk]
        simp [jsNullish, Json.nullish, jsLoopCount]
      · intro hk
        rw [genMockItems_length rp g _ _ _ _ _ _ hi, hk]
        rfl

/-- A two-node graph: node 0 is an array schema with `minItems = 3` whose
items schema is the string node 1. -/
def arrayMin3Graph : Nat → Option (SchemaNode Nat) := fun i =>
  if i = 0 then some { type := .str "array", minItems := .num 3, items := some 1 }
  else if i = 1 then some { type := .str "string" }
  else none

theorem C7_array_minItems_count_witness :
    ∃ items, genMockCore rpFixed arrayMin3Graph (2 + 1) (some 0) [] none =
        some (.arr items, [some 0]) ∧
      items.length = jsLoopCount (jsNullish (Json.num 3) (.num 1)) ∧
      (∀ k : Nat, Json.num 3 = .num (Int.ofNat k) → items.length = k) ∧
      (Json.num 3 = Json.undefined → items.length = 1) := by
  exact C7_array_minItems_count rpFixed arrayMin3Graph [0, 1] (by
      intro a ha
      by_cases h0 : a = 0
      · simp [h0]
      · by_cases h1 : a = 1
        · simp [h1]
        · simp [arrayMin3Graph, h0, h1] at ha)
    2 0 [] none { type := .str "array", minItems := .num 3, items := some 1 }
    (by decide) rfl rfl rfl rfl rfl (by decide)

/-! ## Concrete documents used by the claims -/

/-- The minimal OpenAPI 3.0 document of claim C2. -/
def docC2 : Json := .obj [("openapi", .str "3.0.0"),
  ("info", .obj [("title", .str "T")]),
  ("paths", .obj [("/x", .obj [("get", .obj [("operationId", .str "Op"),
    ("responses", .obj [("200", .obj [("description", .str "OK")])])])])])]

/-- **C2.** Converting the minimal document yields exactly one collection
named "T" with zero folders and exactly one request attached directly to
the collection, named "Op" with method GET, whose response map has exactly
one entry named "OK" with numeric status code 200 (for every randomness
provider — the document synthesizes no body). -/
theorem C2_minimal_doc_roundtrip (rp : RandomProvider) :
    (convertOpenApiDocsToHopp rp [docC2] none).toOption.map (fun cols =>
      cols.map fun col =>
        (col.name, col.folders.length, col.requests.map fun req =>
          (req.name, req.method, req.responses.map fun kv => (kv.1, kv.2.name, kv.2.code)))) =
    some [(Json.str "T", 0, [(Json.str "Op", "GET", [("OK", Json.str "OK", 200)])])] := rfl

/-- **C3.** An input that parses neither as JSON nor as YAML (both abstract
parser capabilities fail) makes `parseOpenAPIDocContent` produce nothing,
and one such input anywhere in the batch fails the whole importer call with
the single tag "importer/invalid_file_format", regardless of the other
inputs. -/
theorem C3_unparseable_input_fails_batch :
    (∀ (pJ pY : String → Option Json) (s : String),
       parseOpenAPIDocContent pJ pY s = none ↔ (pJ s = none ∧ pY s = none)) ∧
    (∀ (pJ pY : String → Option Json) (validate deref : Json → Except String Json)
       (rp : RandomProvider) (files : List String) (f : String),
       f ∈ files → parseOpenAPIDocContent pJ pY f = none →
       hoppOpenAPIImporter pJ pY validate deref rp files =
         .failed IMPORTER_INVALID_FILE_FORMAT) := by
  constructor
  · intro pJ pY s
    rw [parseOpenAPIDocContent]
    cases hpj : pJ s with
    | some d => simp
    | none => simp
  · intro pJ pY validate deref rp files f hf hparse
    rw [hoppOpenAPIImporter, mapM_option_none_of_mem (parseOpenAPIDocContent pJ pY) files f hf hparse]

/-- A JSON parser that only accepts the literal text "good". -/
def pJOnlyGood : String → Option Json :=
  fun s => if s = "good" then some (.obj [("info", .obj []), ("paths", .obj [])]) else none

/-- A YAML parser that accepts nothing. -/
def pYNothing : String → Option Json := fun _ => none

theorem C3_unparseable_input_fails_batch_witness :
    (parseOpenAPIDocContent pJOnlyGood pYNothing "bad" = none ↔
       (pJOnlyGood "bad" = none ∧ pYNothing "bad" = none)) ∧
    hoppOpenAPIImporter pJOnlyGood pYNothing (fun d => .ok d) (fun d => .ok d) rpFixed
      ["good", "bad", "good"] = .failed IMPORTER_INVALID_FILE_FORMAT := by
  exact ⟨C3_unparseable_input_fails_batch.1 pJOnlyGood pYNothing "bad",
    C3_unparseable_input_fails_batch.2 pJOnlyGood pYNothing _ _ rpFixed
      ["good", "bad", "good"] "bad" (by simp) rfl⟩

/-- The document of claim C5: its only `$ref` points outside the document
and cannot be resolved. -/
def docC5 : Json := .obj [("openapi", .str "3.0.0"),
  ("info", .obj [("title", .str "R")]),
  ("paths", .obj [("/y", .obj [("post", .obj [
    ("operationId", .str "MakeY"),
    ("requestBody", .obj [("content", .obj [("application/json", .obj [
      ("schema", .obj [("$ref", .str "external.yaml#/components/schemas/Thing")])])])])])])])]

/-- **C5.** Dereference failures are caught within the per-document scope:
(i) no importer call ever surfaces the "openapi/deref_error" tag; (ii) a
dereference adapter is interchangeable with its fallback-wrapped version
that returns the original document on failure — a throwing `deref` changes
nothing; (iii) a document whose only `$ref` points outside the document and
cannot be resolved still converts successfully, the affected operation's
body synthesized from the original non-dereferenced `$ref` schema. -/
theorem C5_deref_failure_degrades_to_original :
    (∀ (pJ pY : String → Option Json) (validate deref : Json → Except String Json)
       (rp : RandomProvider) (files : List String),
       hoppOpenAPIImporter pJ pY validate deref rp files ≠ .failed OPENAPI_DEREF_ERROR) ∧
    (∀ (pJ pY : String → Option Json) (validate deref : Json → Except String Json)
       (rp : RandomProvider) (files : List String),
       hoppOpenAPIImporter pJ pY validate deref rp files =
         hoppOpenAPIImporter pJ pY validate
           (fun d => match deref d with | .ok v => .ok v | .error _ => .ok d) rp files) ∧
    ((match hoppOpenAPIImporter (fun _ => some docC5) (fun _ => none)
        (fun d => .ok d) (fun _ => .error "COULD_NOT_DEREFERENCE") rpFixed ["spec.json"] with
      | .ok cols => some (cols.map fun col => col.requests.map fun req => req.body)
      | _ => none) =
      some [[.text "application/json" (.str "null")]]) := by
  refine ⟨?_, ?_, ?_⟩
  · intro pJ pY validate deref rp files h
    rw [hoppOpenAPIImporter] at h
    cases hm : files.mapM (parseOpenAPIDocContent pJ pY) with
    | none =>
        rw [hm] at h
        injection h with h'
        exact absurd h' (by decide)
    | some docs =>
        rw [hm] at h
        dsimp only at h
        cases hc : convertOpenApiDocsToHopp rp
            (dereferenceStage deref (validationStage validate docs)) none with
        | ok cols => rw [hc] at h; cases h
        | error m => rw [hc] at h; cases h
  · intro pJ pY validate deref rp files
    rw [hoppOpenAPIImporter, hoppOpenAPIImporter]
    cases hm : files.mapM (parseOpenAPIDocContent pJ pY) with
    | none => rfl
    | some docs =>
        dsimp only
        have hstage : dereferenceStage deref (validationStage validate docs) =
            dereferenceStage (fun d => match deref d with | .ok v => .ok v | .error _ => .ok d)
              (validationStage validate docs) := by
          rw [dereferenceStage, dereferenceStage]
          apply List.map_congr_left
          intro d _
          cases hd : deref d with
          | ok v => rfl
          | error e => rfl
        rw [hstage]
  · rfl

/-- The scheme dispatch in the order the spec's §4.6 precedence sentence
lists it (bearer, basic, apiKey, oauth2).  The four guards test the same
`type` field against different literals, so they are mutually exclusive and
this agrees with the source's bearer/apiKey/basic/oauth2 textual order —
proved in the C6 theorem. -/
def mapSchemeToAuthSpecOrder (scheme : Json) : Except String HoppRESTAuth :=
  if jeqStr (jget scheme "type") "http" && jeqStr (jget scheme "scheme") "bearer" then
    pure (.bearer true "<<bearer_token>>")
  else if jeqStr (jget scheme "type") "http" && jeqStr (jget scheme "scheme") "basic" then
    pure (.basic true "<<username>>" "<<password>>")
  else if jeqStr (jget scheme "type") "apiKey" then
    pure (.apiKey true (jsOr (jget scheme "name") (.str "api_key")) "<<api_key_value>>"
      (if jeqStr (jget scheme "in") "query" then "QUERY_PARAMS" else "HEADERS"))
  else if jeqStr (jget scheme "type") "oauth2" then do
    let flows := jsOr (jget scheme "flows") (.obj [(jsToString (jget scheme "flow"), scheme)])
    let flowType? := (jsKeysTot flows).head?
    let flowObj := jget flows (flowType?.getD "undefined")
    let grantType := (grantTypeMap (flowType?.getD "undefined")).getD "AUTHORIZATION_CODE"
    let authUrl ← jaccess flowObj "authorizationUrl"
    let tokenUrl ← jaccess flowObj "tokenUrl"
    let scopes ← jaccess flowObj "scopes"
    pure (.oauth2 true "HEADERS" grantType
      (jsOr authUrl (.str "<<auth_url>>"))
      (jsOr tokenUrl (.str "<<token_url>>"))
      "<<client_id>>" "<<client_secret>>"
      (String.intercalate " " (jsKeysTot (jsOr scopes (.obj [])))))
  else pure (.authNone true)

/-- **C6.** (i) Whenever the effective security requirement
(operation-level, else document-level) resolves through the document's
scheme registry to a truthy scheme with `type: "http"` and `scheme:
"bearer"`, the auth mapper returns bearer auth with the placeholder token —
no other field of the scheme object is consulted, so apiKey-like extras
change nothing.  (ii) The source's dispatch equals the dispatch in the
spec's bearer/basic/apiKey/oauth2 sequence: the guards are evaluated
against the scheme's declared `type` and are mutually exclusive. -/
theorem C6_auth_bearer_fixed_sequence :
    (∀ (doc op req : Json) (rest : List Json) (n : String) (ks : List String) (schemeObj : Json),
       jsNullish (jget op "security") (jget doc "security") = .arr (req :: rest) →
       jsKeysE req = .ok (n :: ks) →
       jget (jsOr (jsOptChain (jget doc "components") "securitySchemes")
         (jsOr (jget doc "securityDefinitions") (.obj []))) n = schemeObj →
       schemeObj.truthy = true →
       jget schemeObj "type" = .str "http" →
       jget schemeObj "scheme" = .str "bearer" →
       parseOpenAPIAuth doc op = .ok (.bearer true "<<bearer_token>>")) ∧
    (∀ s, mapSchemeToAuth s = mapSchemeToAuthSpecOrder s) := by
  constructor
  · intro doc op req rest n ks schemeObj hsec hkeys hschemes htruthy htype hscheme
    rw [parseOpenAPIAuth]
    rw [hsec]
    have hcond : (¬ (Json.arr (req :: rest)).truthy ||
        jeqNum (jget (Json.arr (req :: rest)) "length") 0) = false := by
      simp [Json.truthy, jget, jeqNum]
      omega
    rw [hcond, if_neg Bool.false_ne_true]
    have h0 : jget (Json.arr (req :: rest)) "0" = req := rfl
    rw [h0]
    dsimp only
    rw [hkeys]
    show (if ¬ (jget (jsOr (jsOptChain (jget doc "components") "securitySchemes")
          (jsOr (jget doc "securityDefinitions") (.obj []))) n).truthy = true then
        pure (HoppRESTAuth.authNone true)
      else mapSchemeToAuth (jget (jsOr (jsOptChain (jget doc "components") "securitySchemes")
          (jsOr (jget doc "securityDefinitions") (.obj []))) n)) =
      Except.ok (HoppRESTAuth.bearer true "<<bearer_token>>")
    rw [hschemes, htruthy]
    rw [if_neg (by simp)]
    rw [mapSchemeToAuth, htype, hscheme]
    rfl
  · intro s
    rw [mapSchemeToAuth, mapSchemeToAuthSpecOrder]
    cases ht : jget s "type" with
    | str t =>
        by_cases h1 : t = "http"
        · subst h1
          simp [jeqStr]
        · by_cases h2 : t = "apiKey"
          · subst h2
            simp [jeqStr]
          · simp [jeqStr, h1, h2]
    | undefined => rfl
    | null => rfl
    | bool b => rfl
    | num m => rfl
    | arr l => rfl
    | obj fs => rfl

/-- The bearer scheme of the C6 witness carries unrelated apiKey-like extra
fields (`name`, `in`); they are ignored. -/
def docC6 : Json := .obj [("openapi", .str "3.0.0"),
  ("info", .obj [("title", .str "A")]),
  ("security", .arr [.obj [("myAuth", .arr [])]]),
  ("components", .obj [("securitySchemes", .obj [("myAuth", .obj [
    ("type", .str "http"), ("scheme", .str "bearer"),
    ("name", .str "X-API-KEY"), ("in", .str "header")])])]),
  ("paths", .obj [])]

def opC6 : Json := .obj [("operationId", .str "Op")]

theorem C6_auth_bearer_fixed_sequence_witness :
    parseOpenAPIAuth docC6 opC6 = .ok (.bearer true "<<bearer_token>>") ∧
    mapSchemeToAuth (.obj [("type", .str "http"), ("scheme", .str "bearer"),
        ("name", .str "X-API-KEY"), ("in", .str "header")]) =
      mapSchemeToAuthSpecOrder (.obj [("type", .str "http"), ("scheme", .str "bearer"),
        ("name", .str "X-API-KEY"), ("in", .str "header")]) :=
  ⟨C6_auth_bearer_fixed_sequence.1 docC6 opC6
      (.obj [("myAuth", .arr [])]) [] "myAuth" []
      (.obj [("type", .str "http"), ("scheme", .str "bearer"),
        ("name", .str "X-API-KEY"), ("in", .str "header")])
      rfl rfl rfl rfl rfl rfl,
    C6_auth_bearer_fixed_sequence.2 _⟩
/-- The C8 document: one operation tagged ["A","B"] and one untagged
operation. -/
def docC8 : Json := .obj [("openapi", .str "3.0.0"),
  ("info", .obj [("title", .str "T")]),
  ("paths", .obj [
    ("/t", .obj [("get", .obj [("operationId", .str "TaggedOp"),
      ("tags", .arr [.str "A", .str "B"]),
      ("responses", .obj [("200", .obj [("description", .str "OK")])])])]),
    ("/p", .obj [("get", .obj [("operationId", .str "PlainOp"),
      ("responses", .obj [("200", .obj [("description", .str "OK")])])])])])]

/-- Modelled from the spec: the heap of the deep-clone utility made
explicit — each `cloneDeep` call allocates one fresh address holding an
independent copy, so folder entries are addresses, never shared
references. -/
structure AllocState where
  byTags : List (String × List Nat)
  rootRequests : List HoppRESTRequest
  next : Nat
  store : List (Nat × HoppRESTRequest)
deriving DecidableEq

/-- `requestsByTags[tag].push(addr)` on addresses. -/
def pushByTagA (byTags : List (String × List Nat)) (tag : String)
    (a : Nat) : List (String × List Nat) :=
  if byTags.any (fun p => p.1 = tag) then
    byTags.map fun p => if p.1 = tag then (p.1, p.2 ++ [a]) else p
  else byTags ++ [(tag, [a])]

/-- Modelled from the spec: the tag fan-out loop with allocation made
explicit — every `cloneDeep` call takes the next fresh address and stores
the copy there. -/
def groupRequestsByTagsAlloc (paths : List ReqWithTags) :
    Except String AllocState :=
  paths.foldlM (fun acc rw => do
    if jeqNum (jget rw.tags "length") 0 then
      pure { acc with rootRequests := acc.rootRequests ++ [rw.request] }
    else do
      let tagList ← tagsIterationList rw.tags
      pure (tagList.foldl (fun st tag =>
        { st with byTags := pushByTagA st.byTags (jsToString tag) st.next,
                  next := st.next + 1,
                  store := st.store ++ [(st.next, cloneDeep rw.request)] }) acc))
    { byTags := [], rootRequests := [], next := 0, store := [] }

/-- Modelled from the spec: mutation of the object at one heap address. -/
def hupdate (store : List (Nat × HoppRESTRequest)) (a : Nat)
    (v : HoppRESTRequest) : List (Nat × HoppRESTRequest) :=
  store.map fun p => if p.1 = a then (a, v) else p

/-- Reading the object at a heap address. -/
def hlookup (store : List (Nat × HoppRESTRequest)) (a : Nat) :
    Option HoppRESTRequest :=
  (store.find? (fun p => p.1 == a)).map Prod.snd

/-- **C8.** (i) Converting the C8 document (for every randomness provider)
yields folders "A" and "B", each holding exactly one request "TaggedOp",
with equal request values, while the untagged "PlainOp" sits in the root
request list.  (ii) In the allocation model the fan-out of one request
tagged ["A","B"] allocates two distinct fresh addresses, one per folder,
each storing its own copy.  (iii) Updating the heap at one address leaves
every other address unchanged — mutating one clone cannot affect the
other.  (iv) A request with zero tags attaches directly to the root list
and allocates nothing. -/
theorem C8_tag_fanout_deep_copies :
    (∀ rp : RandomProvider,
      (convertOpenApiDocsToHopp rp [docC8] none).toOption.map (fun cols =>
        cols.map fun col =>
          (col.folders.map (fun f => (f.name, f.requests.map HoppRESTRequest.name)),
           col.requests.map HoppRESTRequest.name,
           match col.folders with
           | [fa, fb] => some (decide (fa.requests = fb.requests))
           | _ => none)) =
      some [([(Json.str "A", [Json.str "TaggedOp"]), (Json.str "B", [Json.str "TaggedOp"])],
        [Json.str "PlainOp"], some true)]) ∧
    (∀ r : HoppRESTRequest,
      groupRequestsByTagsAlloc [⟨r, .arr [.str "A", .str "B"]⟩] =
        .ok { byTags := [("A", [0]), ("B", [1])], rootRequests := [],
              next := 2, store := [(0, cloneDeep r), (1, cloneDeep r)] }) ∧
    (∀ (store : List (Nat × HoppRESTRequest)) (a b : Nat) (v : HoppRESTRequest),
      a ≠ b → hlookup (hupdate store a v) b = hlookup store b) ∧
    (∀ r : HoppRESTRequest, groupRequestsByTags [⟨r, .arr []⟩] = .ok ([], [r])) := by
  refine ⟨fun rp => rfl, fun r => rfl, ?_, fun r => rfl⟩
  intro store a b v hab
  induction store with
  | nil => rfl
  | cons p t ih =>
      rw [hupdate, List.map] at *
      by_cases hp : p.1 = a
      · rw [if_pos hp, hlookup, List.find?]
        have hba : (a == b) = false := by
          simp only [beq_eq_false_iff_ne, ne_eq]
          exact hab
        rw [hba]
        rw [hlookup, List.find?]
        have hpb : (p.1 == b) = false := by
          simp only [beq_eq_false_iff_ne, ne_eq, hp]
          exact hab
        rw [hpb]
        exact ih
      · rw [if_neg hp, hlookup, List.find?]
        cases hpb : (p.1 == b) with
        | true => rw [hlookup, List.find?, hpb]
        | false => rw [hlookup, List.find?, hpb]; exact ih

def reqC8 : HoppRESTRequest :=
  { name := .str "X", description := .null, method := "GET", endpoint := "e",
    params := [], headers := [], auth := .authNone true, body := .noBody,
    preRequestScript := "", testScript := "", requestVariables := [],
    responses := [] }

theorem C8_tag_fanout_deep_copies_witness :
    ((convertOpenApiDocsToHopp rpFixed [docC8] none).toOption.map (fun cols =>
        cols.map fun col =>
          (col.folders.map (fun f => (f.name, f.requests.map HoppRESTRequest.name)),
           col.requests.map HoppRESTRequest.name,
           match col.folders with
           | [fa, fb] => some (decide (fa.requests = fb.requests))
           | _ => none)) =
      some [([(Json.str "A", [Json.str "TaggedOp"]), (Json.str "B", [Json.str "TaggedOp"])],
        [Json.str "PlainOp"], some true)]) ∧
    (groupRequestsByTagsAlloc [⟨reqC8, .arr [.str "A", .str "B"]⟩] =
      .ok { byTags := [("A", [0]), ("B", [1])], rootRequests := [],
            next := 2, store := [(0, cloneDeep reqC8), (1, cloneDeep reqC8)] }) ∧
    ((0 : Nat) ≠ 1 ∧
      hlookup (hupdate [(0, reqC8), (1, reqC8)] 0 { reqC8 with endpoint := "mutated" }) 1 =
        hlookup [(0, reqC8), (1, reqC8)] 1) ∧
    groupRequestsByTags [⟨reqC8, .arr []⟩] = .ok ([], [reqC8]) :=
  ⟨C8_tag_fanout_deep_copies.1 rpFixed,
   C8_tag_fanout_deep_copies.2.1 reqC8,
   ⟨by decide, C8_tag_fanout_deep_copies.2.2.1 [(0, reqC8), (1, reqC8)] 0 1
      { reqC8 with endpoint := "mutated" } (by decide)⟩,
   C8_tag_fanout_deep_copies.2.2.2 reqC8⟩
/-- `Except.ok` binds reduce. -/
theorem except_bind_ok {α β : Type} (a : α) (f : α → Except String β) :
    ((Except.ok a : Except String α) >>= f) = f a := rfl

/-- `pure` binds reduce. -/
theorem except_pure_bind {α β : Type} (a : α) (f : α → Except String β) :
    ((pure a : Except String α) >>= f) = f a := rfl

/-- Destructuring a successful `Except` bind. -/
theorem except_bind_eq_ok {α β : Type} {x : Except String α}
    {f : α → Except String β} {r : β}
    (h : (x >>= f) = .ok r) : ∃ a, x = .ok a ∧ f a = .ok r := by
  cases x with
  | error e => cases h
  | ok a => exact ⟨a, rfl, h⟩

/-- Every request built by `buildRequest` takes its endpoint from
`parseOpenAPIUrl` (not `extractBaseUrl`) joined to the templated path with
slash deduplication. -/
theorem buildRequest_endpoint (rp : RandomProvider) (doc : Json)
    (pathName m : String) (info : Json) (rwt : ReqWithTags)
    (h : buildRequest rp doc pathName m info = .ok rwt) :
    ∃ urlJ u, parseOpenAPIUrl doc = .ok urlJ ∧ asStrE urlJ = .ok u ∧
      rwt.request.endpoint =
        (if strEndsWith u "/" && strStartsWith (replaceOpenApiPathTemplating pathName) "/" then
          u ++ (replaceOpenApiPathTemplating pathName).drop 1
        else u ++ replaceOpenApiPathTemplating pathName) := by
  rw [buildRequest] at h
  obtain ⟨urlJ, hu, h⟩ := except_bind_eq_ok h
  obtain ⟨u, hsu, h⟩ := except_bind_eq_ok h
  obtain ⟨params, _, h⟩ := except_bind_eq_ok h
  obtain ⟨headers, _, h⟩ := except_bind_eq_ok h
  obtain ⟨auth, _, h⟩ := except_bind_eq_ok h
  obtain ⟨body, _, h⟩ := except_bind_eq_ok h
  obtain ⟨reqVars, _, h⟩ := except_bind_eq_ok h
  obtain ⟨origAuth, _, h⟩ := except_bind_eq_ok h
  obtain ⟨origBody, _, h⟩ := except_bind_eq_ok h
  obtain ⟨origParams, _, h⟩ := except_bind_eq_ok h
  obtain ⟨origHeaders, _, h⟩ := except_bind_eq_ok h
  obtain ⟨origVars, _, h⟩ := except_bind_eq_ok h
  obtain ⟨responses, _, h⟩ := except_bind_eq_ok h
  cases h
  exact ⟨urlJ, u, hu, hsu, rfl⟩

/-- **C9** (amended). Every request produced by `convertPathToHoppReqs`
has endpoint = the `parseOpenAPIUrl` base (Swagger host+basePath, else
first server URL verbatim, else the `<<baseUrl>>` placeholder — never the
`extractBaseUrl` value of §4.5.1) concatenated with the `{}`→`<<>>`
templated path, dropping one duplicate slash at the join point. -/
theorem C9_endpoint_base_join (rp : RandomProvider) (doc : Json)
    (pathName : String) (pathObj : Json) (out : List ReqWithTags)
    (rwt : ReqWithTags)
    (hout : convertPathToHoppReqs rp doc pathName pathObj = .ok out)
    (hr : rwt ∈ out) :
    ∃ urlJ u, parseOpenAPIUrl doc = .ok urlJ ∧ asStrE urlJ = .ok u ∧
      rwt.request.endpoint =
        (if strEndsWith u "/" && strStartsWith (replaceOpenApiPathTemplating pathName) "/" then
          u ++ (replaceOpenApiPathTemplating pathName).drop 1
        else u ++ replaceOpenApiPathTemplating pathName) := by
  rw [convertPathToHoppReqs] at hout
  obtain ⟨present, hp, hout⟩ := except_bind_eq_ok hout
  obtain ⟨mi, hmi, hb⟩ := mapM_except_mem _ present out hout rwt hr
  exact buildRequest_endpoint rp doc pathName mi.1 mi.2 rwt hb

/-- The C9 document: its only server URL is the relative path "/v1". -/
def docC9 : Json := .obj [("openapi", .str "3.0.0"),
  ("info", .obj [("title", .str "S")]),
  ("servers", .arr [.obj [("url", .str "/v1")]]),
  ("paths", .obj [("/x", .obj [("get", .obj [("operationId", .str "Op"),
    ("responses", .obj [("200", .obj [("description", .str "OK")])])])])])]

/-- **C9** (counterexample). With a relative server URL and a caller
origin, §4.5.1's `extractBaseUrl` yields "https://origin/v1" — and that
value does reach the collection-level base URL — but the request endpoint
is the verbatim server URL join "/v1/x", which does not even start with
the §4.5.1 base, refuting endpoint = extracted base ++ templated path. -/
theorem C9_endpoint_not_extractBaseUrl :
    extractBaseUrl docC9 (some "https://origin") = .ok "https://origin/v1" ∧
    ((convertOpenApiDocsToHopp rpFixed [docC9] (some "https://origin")).toOption.map
      (fun cols => cols.map fun col =>
        (col.auth, col.requests.map fun r => r.endpoint)) =
      some [(.inheritAuth true (some "https://origin/v1"), ["/v1/x"])]) ∧
    ¬ strStartsWith "/v1/x" "https://origin/v1" :=
  ⟨rfl, rfl, by decide⟩

def pathObjC9 : Json := jget (jget docC9 "paths") "/x"

def outC9 : List ReqWithTags :=
  (convertPathToHoppReqs rpFixed docC9 "/x" pathObjC9).toOption.getD []

/-- A placeholder request, only read if `outC9` were empty. -/
def rwtC9f : ReqWithTags :=
  ⟨{ name := .null, description := .null, method := "", endpoint := "",
     params := [], headers := [], auth := .authNone true, body := .noBody,
     preRequestScript := "", testScript := "", requestVariables := [],
     responses := [] }, .arr []⟩

theorem C9_endpoint_base_join_witness :
    ∃ urlJ u, parseOpenAPIUrl docC9 = .ok urlJ ∧ asStrE urlJ = .ok u ∧
      (outC9.headD rwtC9f).request.endpoint =
        (if strEndsWith u "/" && strStartsWith (replaceOpenApiPathTemplating "/x") "/" then
          u ++ (replaceOpenApiPathTemplating "/x").drop 1
        else u ++ replaceOpenApiPathTemplating "/x") :=
  C9_endpoint_base_join rpFixed docC9 "/x" pathObjC9 outC9
    (outC9.headD rwtC9f) rfl (by decide)
/-- The C4 document: an `info` member but no `paths`, so classification
fails. -/
def docC4 : Json := .obj [("info", .obj [("title", .str "T")])]

/-- **C4** (counterexample). A single-document batch whose only document
fails classification (no `paths`) does NOT fail with
invalid_file_format: the per-document catch swallows the classification
throw, pushes the document unchanged, and conversion still runs — the
importer returns an ok collection named "T" with no requests. -/
theorem C4_classification_failure_not_batch_failure :
    isValidOpenAPISpec docC4 = false ∧
    (match hoppOpenAPIImporter (fun _ => some docC4) (fun _ => none)
        (fun d => .ok d) (fun d => .ok d) rpFixed ["doc.json"] with
     | .ok cols => some (cols.map fun col => (col.name, col.folders.length, col.requests.length))
     | _ => none) = some [(Json.str "T", 0, 0)] ∧
    hoppOpenAPIImporter (fun _ => some docC4) (fun _ => none)
        (fun d => .ok d) (fun d => .ok d) rpFixed ["doc.json"] ≠
      .failed IMPORTER_INVALID_FILE_FORMAT :=
  ⟨rfl, rfl, fun h => nomatch h⟩

/-- **C4** (amended). (i) The classifier accepts exactly the documents
with a `paths` member and (a string `swagger` field, or a string `openapi`
field, or an `info` member).  (ii) But classification failure never fails
the batch: whenever every file parses, the importer's result is exactly
the conversion outcome of the validation- and dereference-processed
documents — `invalid_file_format` can only arise from a parse failure. -/
theorem C4_classifier_and_batch :
    (∀ d, isValidOpenAPISpec d = true ↔
       (objectHasProperty d "paths" = true ∧
         ((objectHasProperty d "swagger" = true ∧ ∃ s, jget d "swagger" = Json.str s) ∨
          (objectHasProperty d "openapi" = true ∧ ∃ s, jget d "openapi" = Json.str s) ∨
          objectHasProperty d "info" = true))) ∧
    (∀ (pJ pY : String → Option Json) (validate deref : Json → Except String Json)
       (rp : RandomProvider) (files : List String) (docs : List Json),
       files.mapM (parseOpenAPIDocContent pJ pY) = some docs →
       hoppOpenAPIImporter pJ pY validate deref rp files =
         (match convertOpenApiDocsToHopp rp
             (dereferenceStage deref (validationStage validate docs)) none with
          | .ok cols => ImportResult.ok cols
          | .error m => ImportResult.crashed m)) := by
  constructor
  · intro d
    rw [isValidOpenAPISpec, isOpenAPIV2Document, isOpenAPIV3Document]
    cases hsw : jget d "swagger" <;> cases hop : jget d "openapi" <;>
      simp [Bool.and_eq_true, Bool.or_eq_true, or_assoc]
  · intro pJ pY validate deref rp files docs hm
    rw [hoppOpenAPIImporter, hm]

theorem C4_classifier_and_batch_witness :
    hoppOpenAPIImporter (fun _ => some docC4) (fun _ => none) (fun d => .ok d)
        (fun d => .ok d) rpFixed ["doc.json"] =
      (match convertOpenApiDocsToHopp rpFixed
          (dereferenceStage (fun d => .ok d)
            (validationStage (fun d => .ok d) [docC4])) none with
       | .ok cols => ImportResult.ok cols
       | .error m => ImportResult.crashed m) :=
  C4_classifier_and_batch.2 (fun _ => some docC4) (fun _ => none) (fun d => .ok d)
    (fun d => .ok d) rpFixed ["doc.json"] [docC4] rfl
theorem objInsertG_nil {β : Type} (k : String) (v : β) :
    objInsertG ([] : List (String × β)) k v = [(k, v)] := rfl

theorem objInsertG_singleton_same {β : Type} (k : String) (v w : β) :
    objInsertG [(k, v)] k w = [(k, w)] := by
  simp [objInsertG]

/-- JavaScript property assignment keeps keys unique: if a key occurs at
most once, it still occurs at most once after `o[k] = v`. -/
theorem objInsertG_countP_le_one {β : Type} (l : List (String × β)) (k : String)
    (v : β) (k' : String) (h : l.countP (fun p => decide (p.1 = k')) ≤ 1) :
    (objInsertG l k v).countP (fun p => decide (p.1 = k')) ≤ 1 := by
  rw [objInsertG]
  split
  case isTrue hany =>
    rw [List.countP_map]
    refine le_trans (List.countP_mono_left ?_) h
    intro a ha hpa
    simp only [Function.comp_apply] at hpa
    by_cases hak : a.1 = k
    · rw [if_pos hak] at hpa
      have hkk : k = k' := of_decide_eq_true hpa
      simp [hak, hkk]
    · rw [if_neg hak] at hpa
      exact hpa
  case isFalse hany =>
    rw [List.countP_append]
    by_cases hkk : k = k'
    · have h0 : l.countP (fun p => decide (p.1 = k')) = 0 := by
        rw [List.countP_eq_zero]
        intro a ha
        have := List.any_eq_false.mp (Bool.eq_false_iff.mpr hany) a ha
        simp only [decide_eq_true_eq] at this ⊢
        rw [← hkk]
        exact this
      simp [h0, hkk, List.countP_cons]
    · have h1 : ([(k, v)]).countP (fun p => decide (p.1 = k')) = 0 := by
        simp [List.countP_cons, hkk]
      rw [h1]
      simpa using h

/-- The accumulator invariant of the response loops: folding
insert-or-replace steps keeps every key's multiplicity at most one. -/
theorem foldlM_objInsertG_count {β : Type}
    (f : (String × Json) → Except String (String × β)) :
    ∀ (entries : List (String × Json)) (acc res : List (String × β)),
      entries.foldlM (fun r kv => do
        let e ← f kv
        pure (objInsertG r e.1 e.2)) acc = .ok res →
      (∀ k, acc.countP (fun p => decide (p.1 = k)) ≤ 1) →
      ∀ k, res.countP (fun p => decide (p.1 = k)) ≤ 1 := by
  intro entries
  induction entries with
  | nil =>
      intro acc res h hacc k
      cases h
      exact hacc k
  | cons a t ih =>
      intro acc res h hacc k
      rw [List.foldlM_cons] at h
      obtain ⟨b, hb, h⟩ := except_bind_eq_ok h
      obtain ⟨e, hfe, hb2⟩ := except_bind_eq_ok hb
      cases hb2
      exact ih _ res h (fun k' => objInsertG_countP_le_one acc e.1 e.2 k' (hacc k')) k

/-- **C10.** (i)/(ii) Each response-map entry (both dialects) is named by
the response's declared description and falls back to the declared key
only when the description is nullish; (iii)/(iv) the produced map holds at
most one entry per name; (v) two responses declaring the same name leave
exactly one entry under it, carrying the later-declared response. -/
theorem C10_response_name_last_wins :
    (∀ (orig : HoppRESTResponseOriginalRequest) (key : String) (value : Json)
       (entry : String × HoppRESTResponse),
       buildV3Response orig key value = .ok entry →
       entry.1 = jsToString (jsNullish (jget value "description") (.str key))) ∧
    (∀ (orig : HoppRESTResponseOriginalRequest) (key : String) (value : Json)
       (entry : String × HoppRESTResponse),
       buildV2Response orig key value = .ok entry →
       entry.1 = jsToString (jsNullish (jget value "description") (.str key))) ∧
    (∀ (op : Json) (orig : HoppRESTResponseOriginalRequest)
       (res : List (String × HoppRESTResponse)),
       parseOpenAPIV3Responses op orig = .ok res →
       ∀ k, res.countP (fun p => decide (p.1 = k)) ≤ 1) ∧
    (∀ (op : Json) (orig : HoppRESTResponseOriginalRequest)
       (res : List (String × HoppRESTResponse)),
       parseOpenAPIV2Responses op orig = .ok res →
       ∀ k, res.countP (fun p => decide (p.1 = k)) ≤ 1) ∧
    (∀ (op : Json) (orig : HoppRESTResponseOriginalRequest) (k1 k2 : String)
       (v1 v2 : Json) (e1 e2 : String × HoppRESTResponse),
       jget op "responses" = .obj [(k1, v1), (k2, v2)] →
       buildV3Response orig k1 v1 = .ok e1 →
       buildV3Response orig k2 v2 = .ok e2 →
       e1.1 = e2.1 →
       parseOpenAPIV3Responses op orig = .ok [(e2.1, e2.2)]) := by
  refine ⟨?_, ?_, ?_, ?_, ?_⟩
  · intro orig key value entry h
    rw [buildV3Response] at h
    obtain ⟨content, hc, h⟩ := except_bind_eq_ok h
    cases h
    rfl
  · intro orig key value entry h
    rw [buildV2Response] at h
    obtain ⟨examples, he, h⟩ := except_bind_eq_ok h
    cases h
    rfl
  · intro op orig res h k
    rw [parseOpenAPIV3Responses] at h
    split at h
    · cases h
      simp
    · exact foldlM_objInsertG_count (fun kv => buildV3Response orig kv.1 kv.2)
        _ [] res h (fun k' => by simp) k
  · intro op orig res h k
    rw [parseOpenAPIV2Responses] at h
    split at h
    · cases h
      simp
    · exact foldlM_objInsertG_count (fun kv => buildV2Response orig kv.1 kv.2)
        _ [] res h (fun k' => by simp) k
  · intro op orig k1 k2 v1 v2 e1 e2 hresp hb1 hb2 hee
    rw [parseOpenAPIV3Responses, hresp]
    rw [if_neg (by simp [Json.truthy])]
    rw [show jsEntries (Json.obj [(k1, v1), (k2, v2)]) = [(k1, v1), (k2, v2)] from rfl]
    rw [List.foldlM_cons]
    dsimp only
    rw [hb1, except_bind_ok, except_pure_bind, objInsertG_nil]
    rw [List.foldlM_cons]
    dsimp only
    rw [hb2, except_bind_ok, except_pure_bind, hee, objInsertG_singleton_same]
    rfl
def origC10 : HoppRESTResponseOriginalRequest :=
  { name := .str "O", auth := .authNone true, body := .noBody, endpoint := "",
    params := [], headers := [], method := "GET", requestVariables := [] }

def v1C10 : Json := .obj [("description", .str "Same")]

def v2C10 : Json := .obj [("description", .str "Same"),
  ("content", .obj [("application/json", .obj [("schema", .obj [("type", .str "boolean")])])])]

/-- The C10 operation: responses "200" and "404" declare the same
description "Same". -/
def opC10 : Json := .obj [("responses", .obj [("200", v1C10), ("404", v2C10)])]

def eC10d : String × HoppRESTResponse :=
  ("", { name := .null, status := "", code := 0, headers := [], body := .null,
         originalRequest := origC10 })

def e1C10 : String × HoppRESTResponse :=
  (buildV3Response origC10 "200" v1C10).toOption.getD eC10d

def e2C10 : String × HoppRESTResponse :=
  (buildV3Response origC10 "404" v2C10).toOption.getD eC10d

theorem C10_response_name_last_wins_witness :
    e1C10.1 = jsToString (jsNullish (jget v1C10 "description") (.str "200")) ∧
    parseOpenAPIV3Responses opC10 origC10 = .ok [(e2C10.1, e2C10.2)] :=
  ⟨C10_response_name_last_wins.1 origC10 "200" v1C10 e1C10 rfl,
   C10_response_name_last_wins.2.2.2.2 opC10 origC10 "200" "404" v1C10 v2C10
     e1C10 e2C10 rfl rfl rfl rfl⟩
end Hopp
